import Mathlib

/-!
Verification of iconify: the icon window subsystem.

A shallow embedding of `src/iconify.c` (with the constants of `include/defaults.h`
and the `icon_td` record of `include/iconify.h`).

Conventions of the embedding

* C `int` values are `Int`; every `int` operation is wrapped to 32 bits two's
  complement by `wrapInt`.  `unsigned int` values are `Nat` reduced modulo `2^32`,
  `unsigned long` (`Time`, `Atom`) values are `Nat` reduced modulo `2^64` (LP64).
* The X server is a record of query answers (`XServer`); the requests issued by the
  program are collected, in program order, in a list of `XCall`.
* `XNextEvent` blocks: the event stream is a list of `XEvent`, and a loop that has
  consumed the whole list without reaching a `break` has not terminated.
-/

namespace Iconify

/-! ## Machine arithmetic -/

/-- Smallest value of a C `int`. -/
def INT_MIN : Int := -2147483648

/-- Largest value of a C `int`. -/
def INT_MAX : Int := 2147483647

/-- Number of values of an `unsigned int`. -/
def UINT_MOD : Nat := 4294967296

/-- Number of values of an `unsigned long` (LP64). -/
def ULONG_MOD : Nat := 18446744073709551616

/-- Reduction of a mathematical integer to a 32-bit two's complement `int`. -/
def wrapInt (v : Int) : Int := (v + 2147483648) % 4294967296 - 2147483648

/-- The `int` addition `a + b`. -/
def int_add (a b : Int) : Int := wrapInt (a + b)

/-- The `int` subtraction `a - b`. -/
def int_sub (a b : Int) : Int := wrapInt (a - b)

/-- The `abs` of `<stdlib.h>`. -/
def int_abs (j : Int) : Int := if j < 0 then wrapInt (-j) else j

/-- The `unsigned int` addition `a + b`. -/
def uint_add (a b : Nat) : Nat := (a + b) % UINT_MOD

/-- The `unsigned int` multiplication `a * b`. -/
def uint_mul (a b : Nat) : Nat := (a * b) % UINT_MOD

/-- The conversion `(int) u` of an `unsigned int`. -/
def uint_to_int (u : Nat) : Int := wrapInt (u : Int)

/-- The conversion `(unsigned int) a` of an `unsigned long`. -/
def ulong_to_uint (a : Nat) : Nat := a % UINT_MOD

/-- The `unsigned long` subtraction `a - b`. -/
def ulong_sub (a b : Nat) : Nat := (a % ULONG_MOD + (ULONG_MOD - b % ULONG_MOD)) % ULONG_MOD

/-! ## Constants of `defaults.h` and of the X headers -/

def MAX_APP_NAME_LENGTH : Nat := 100
def DEFAULT_TEXT_HEIGHT : Nat := 20
def DEFAULT_TEXT_VOFFSET : Nat := 15
def DEFAULT_TEXT_LOFFSET : Int := 5
def DEFAULT_WIDTH : Nat := 32
def DEFAULT_HEIGHT : Nat := 32

/-- The `Button1` of `<X11/X.h>`. -/
def Button1 : Nat := 1

/-- The `IsViewable` map state of `<X11/X.h>`. -/
def IsViewable : Nat := 2

/-! ## Data model -/

/-- An X resource identifier (`Window`, `Pixmap`). -/
abbrev Window := Nat

/-- The fields of `XWindowAttributes` read by the program. -/
structure XWindowAttributes where
  x : Int
  y : Int
  map_state : Nat
  deriving DecidableEq, Repr

/-- The answers of the X server to the queries of the program. -/
structure XServer where
  /-- Answer of `XGetWindowAttributes`, `none` when the call returns 0. -/
  XGetWindowAttributes : Window → Option XWindowAttributes
  /-- The parent reported by `XQueryTree`, `none` when the call returns 0. -/
  XQueryTree : Window → Option Window
  /-- The `res_name` reported by `XGetClassHint`, `none` when the call returns 0. -/
  XGetClassHint : Window → Option String
  /-- The identifier returned by `XCreateSimpleWindow`. -/
  XCreateSimpleWindow : Window
  /-- The atom returned by `XInternAtom(display, "WM_DELETE_WINDOW", False)`. -/
  WM_DELETE_WINDOW : Nat

/-- A pixel value: one of the two screen colours or a value kept in the icon. -/
inductive Color where
  | WhitePixel
  | BlackPixel
  | value (v : Nat)
  deriving DecidableEq, Repr

/-- The record `icon_td`.  The field `window` is `none` until `icon_create` has
stored the identifier of the icon window in it (`icon_init` leaves it unset). -/
structure icon_td where
  window_orig : Window
  window : Option Window
  pixmap : Window
  prog_name : String
  path : String
  border : Nat
  width : Nat
  height : Nat
  x_pos : Int
  y_pos : Int
  bg : Nat
  fg : Nat
  fc : Nat
  show_text : Bool
  deriving DecidableEq, Repr

/-- The requests and output of the program, in the order they are issued.
`XFillRectangle` and `XDrawString` carry the foreground of their graphics context. -/
inductive XCall where
  | fprintf_stderr (msg : String)
  | XCreateSimpleWindow (x y : Int) (width height : Nat)
  | XChangeWindowAttributes_override_redirect (w : Option Window)
  | XChangeProperty (w : Option Window) (property value : String)
  | XSetStandardProperties (w : Option Window) (window_name : String)
  | XSelectInput (w : Option Window)
  | pixmap_scale (pixmap_orig : Window) (width_old height_old width_new height_new : Nat)
  | XClearWindow (w : Option Window)
  | XFillRectangle (w : Option Window) (fg : Color) (x y : Int) (width height : Nat)
  | XCopyArea (w : Option Window) (src_x src_y : Int) (width height : Nat) (dest_x dest_y : Int)
  | XDrawString (w : Option Window) (fg : Color) (x y : Int) (text : String)
  | XFreePixmap_scaled
  | XMapWindow (w : Option Window)
  | XUnmapWindow (w : Option Window)
  | XLowerWindow (w : Option Window)
  | XIconifyWindow (w : Window)
  | XMoveWindow (w : Option Window) (x y : Int)
  deriving DecidableEq, Repr

/-- The events read by `events_handle`, with the fields it inspects. -/
inductive XEvent where
  /-- A `ClientMessage` with `data.l[0] = data0` (a `long`). -/
  | ClientMessage (data0 : Int)
  | ButtonPress (button : Nat) (x y : Int)
  | ButtonRelease (button : Nat) (x y : Int) (time : Nat)
  | MotionNotify (x_root y_root : Int)
  | Expose
  /-- Any other event type. -/
  | Other
  deriving DecidableEq, Repr

/-! ## `icon_init` -/

/-- The function `icon_init`; `malloc_ok = false` is the failure of `malloc`. -/
def icon_init (srv : XServer) (malloc_ok : Bool) (window_orig : Window) (pixmap : Window)
    (prog_name : Option String) (path : String) (border width height : Nat)
    (text_bg text_fg frame_c : Nat) (show_text : Bool) : Option icon_td :=
  if !malloc_ok then none
  else
    let name : String :=
      match prog_name with
      | some n => n
      | none =>
        match srv.XGetClassHint window_orig with
        | some res_name => res_name.take (MAX_APP_NAME_LENGTH - 1)
        | none => "Unknown"
    some {
      window_orig := window_orig
      window := none
      pixmap := pixmap
      prog_name := name
      path := path
      border := border
      width := width
      height := height
      x_pos := 240
      y_pos := 240
      bg := text_bg
      fg := text_fg
      fc := frame_c
      show_text := show_text }

/-! ## `icon_draw` -/

/-- The caption height `(icon->show_text) ? DEFAULT_TEXT_HEIGHT : 0`. -/
def text_height (icon : icon_td) : Nat := if icon.show_text then DEFAULT_TEXT_HEIGHT else 0

/-- The function `icon_draw`: the drawing requests it issues, in program order.
`XSetWindowBackground` goes with `XClearWindow`; `XCreateGC`, `XSetForeground` and
`XFreeGC` are carried by the colour of the request they serve.  The call of
`pixmap_scale` is recorded with its arguments. -/
def icon_draw (icon : icon_td) : List XCall :=
  [XCall.pixmap_scale icon.pixmap DEFAULT_WIDTH DEFAULT_HEIGHT icon.width icon.height,
   XCall.XClearWindow icon.window]
  ++ (if icon.border > 0 then
        let total_height :=
          uint_add (uint_add icon.height (text_height icon)) (uint_mul 2 icon.border)
        [XCall.XFillRectangle icon.window (Color.value icon.fc) 0 0
           (uint_add icon.width (uint_mul 2 icon.border)) total_height,
         XCall.XFillRectangle icon.window Color.WhitePixel
           (uint_to_int icon.border) (uint_to_int icon.border)
           icon.width (uint_add icon.height (text_height icon))]
      else [])
  ++ [XCall.XCopyArea icon.window 0 0 icon.width icon.height
        (uint_to_int icon.border) (uint_to_int icon.border)]
  ++ (if icon.show_text then
        [XCall.XFillRectangle icon.window (Color.value icon.bg)
           (uint_to_int icon.border) (uint_to_int (uint_add icon.height icon.border))
           icon.width DEFAULT_TEXT_HEIGHT,
         XCall.XDrawString icon.window (Color.value icon.fg)
           (int_add DEFAULT_TEXT_LOFFSET (uint_to_int icon.border))
           (uint_to_int (uint_add (uint_add icon.height icon.border) DEFAULT_TEXT_VOFFSET))
           icon.prog_name]
      else [])
  ++ [XCall.XFreePixmap_scaled]

/-! ## `icon_create` -/

/-- The outcome of the ancestor walk at the head of `icon_create`. -/
inductive WalkResult where
  /-- `XGetWindowAttributes` failed: `icon_create` returns at once. -/
  | attributes_failed
  /-- The loop was left with the given `absolute_x`, `absolute_y`, either because
  `current_window` became 0 or, with `tree_failed`, through the `break` that
  follows a failed `XQueryTree`. -/
  | finished (absolute_x absolute_y : Int) (tree_failed : Bool)
  deriving DecidableEq, Repr

/-- The loop `while (current_window != 0)` of `icon_create`, run for at most
`fuel` iterations; `none` when the iterations are used up before the loop ends. -/
def hierarchy_walk (srv : XServer) : Nat → Window → Int → Int → Option WalkResult
  | 0, current_window, absolute_x, absolute_y =>
    if current_window = 0 then some (WalkResult.finished absolute_x absolute_y false)
    else none
  | fuel + 1, current_window, absolute_x, absolute_y =>
    if current_window = 0 then some (WalkResult.finished absolute_x absolute_y false)
    else
      match srv.XGetWindowAttributes current_window with
      | none => some WalkResult.attributes_failed
      | some attributes =>
        let ax := if attributes.map_state = IsViewable then int_add absolute_x attributes.x
                  else absolute_x
        let ay := if attributes.map_state = IsViewable then int_add absolute_y attributes.y
                  else absolute_y
        match srv.XQueryTree current_window with
        | some parent => hierarchy_walk srv fuel parent ax ay
        | none => some (WalkResult.finished ax ay true)

/-- The part of `icon_create` that follows the loop, entered with the final
`absolute_x`, `absolute_y`: the new icon record and the requests issued. -/
def icon_place (srv : XServer) (icon : icon_td) (absolute_x absolute_y : Int) :
    icon_td × List XCall :=
  let x_pos : Int := if absolute_x < 0 then 240 else absolute_x
  let y_pos : Int := if absolute_y < 0 then 240 else absolute_y
  let window_height : Nat :=
    uint_add (uint_add icon.height (text_height icon)) (uint_mul 2 icon.border)
  let icon1 : icon_td :=
    { icon with x_pos := x_pos, y_pos := y_pos, window := some srv.XCreateSimpleWindow }
  (icon1,
   [XCall.XCreateSimpleWindow x_pos y_pos
      (uint_add icon.width (uint_mul 2 icon.border)) window_height,
    XCall.XChangeWindowAttributes_override_redirect icon1.window,
    XCall.XChangeProperty icon1.window "_NET_WM_WINDOW_TYPE" "_NET_WM_WINDOW_TYPE_DESKTOP",
    XCall.XChangeProperty icon1.window "_NET_WM_STATE" "_NET_WM_STATE_BELOW",
    XCall.XSetStandardProperties icon1.window icon1.prog_name,
    XCall.XSelectInput icon1.window]
   ++ icon_draw icon1
   ++ [XCall.XMapWindow icon1.window,
       XCall.XLowerWindow icon1.window,
       XCall.XIconifyWindow icon1.window_orig])

/-- The function `icon_create`, its loop run for at most `fuel` iterations: the
icon record it leaves and the requests it issued. -/
def icon_create (srv : XServer) (fuel : Nat) (icon : icon_td) : Option (icon_td × List XCall) :=
  match hierarchy_walk srv fuel icon.window_orig 0 0 with
  | none => none
  | some WalkResult.attributes_failed =>
    some (icon, [XCall.fprintf_stderr "Cannot get window properties\n"])
  | some (WalkResult.finished absolute_x absolute_y tree_failed) =>
    let placed := icon_place srv icon absolute_x absolute_y
    some (placed.1,
      (if tree_failed then [XCall.fprintf_stderr "Cannot obtain window hierarchy\n"] else [])
      ++ placed.2)

/-- The position and size of every window created in a list of requests. -/
def created_windows : List XCall → List (Int × Int × Nat × Nat)
  | [] => []
  | XCall.XCreateSimpleWindow x y width height :: calls =>
    (x, y, width, height) :: created_windows calls
  | _ :: calls => created_windows calls

/-- The walk of `icon_create` started at `current_window` visits, in this order,
windows whose attributes are `chain`, every `XGetWindowAttributes` and `XQueryTree`
on them succeeding, and then stands at window `target`. -/
def walk_chain (srv : XServer) : Window → List XWindowAttributes → Window → Bool
  | current_window, [], target => decide (current_window = target)
  | current_window, attributes :: chain, target =>
    decide (current_window ≠ 0)
    && decide (srv.XGetWindowAttributes current_window = some attributes)
    && (match srv.XQueryTree current_window with
        | some parent => walk_chain srv parent chain target
        | none => false)

/-- The sum of the `x` offsets of the viewable windows of a chain. -/
def viewable_sum_x (chain : List XWindowAttributes) : Int :=
  ((chain.filter (fun a => decide (a.map_state = IsViewable))).map (fun a => a.x)).sum

/-- The sum of the `y` offsets of the viewable windows of a chain. -/
def viewable_sum_y (chain : List XWindowAttributes) : Int :=
  ((chain.filter (fun a => decide (a.map_state = IsViewable))).map (fun a => a.y)).sum

/-- A value that a C `int` can hold. -/
def int_range (v : Int) : Prop := INT_MIN ≤ v ∧ v ≤ INT_MAX

instance (v : Int) : Decidable (int_range v) := by unfold int_range; infer_instance

/-! ## `window_restore` and `events_handle` -/

/-- The function `window_restore`. -/
def window_restore (icon : icon_td) : List XCall :=
  [XCall.XUnmapWindow icon.window, XCall.XMapWindow (some icon.window_orig)]

/-- The variables of `events_handle` that live across iterations: the locals
`dragging`, `x_drag_start`, `y_drag_start` and the static `last_click_time`. -/
structure LoopState where
  dragging : Bool
  x_drag_start : Int
  y_drag_start : Int
  last_click_time : Nat
  deriving DecidableEq, Repr

/-- The outcome of one iteration of the loop of `events_handle`. -/
structure LoopStep where
  state : LoopState
  calls : List XCall
  /-- The iteration left the loop through `break`. -/
  stop : Bool
  deriving DecidableEq, Repr

/-- The test `event.type == ClientMessage && event.xclient.data.l[0] ==
(unsigned int) XInternAtom(display, "WM_DELETE_WINDOW", False)`. -/
def is_delete_message (srv : XServer) (e : XEvent) : Bool :=
  match e with
  | XEvent.ClientMessage data0 => decide (data0 = ((ulong_to_uint srv.WM_DELETE_WINDOW : Nat) : Int))
  | _ => false

/-- One iteration of the `while (True)` loop of `events_handle` on event `e`. -/
def events_step (srv : XServer) (icon : icon_td) (s : LoopState) (e : XEvent) : LoopStep :=
  if is_delete_message srv e then
    { state := s, calls := [], stop := true }
  else
    match e with
    | XEvent.ButtonPress button x y =>
      if button = Button1 then
        { state := { s with dragging := true, x_drag_start := x, y_drag_start := y },
          calls := [], stop := false }
      else { state := s, calls := [], stop := false }
    | XEvent.ButtonRelease button x y time =>
      if button = Button1 then
        let s1 : LoopState := { s with dragging := false }
        if int_abs (int_sub x s.x_drag_start) ≤ 5 ∧ int_abs (int_sub y s.y_drag_start) ≤ 5 then
          if ulong_sub time s.last_click_time ≤ 500 then
            { state := s1, calls := window_restore icon, stop := true }
          else
            { state := { s1 with last_click_time := time }, calls := [], stop := false }
        else { state := s1, calls := [], stop := false }
      else { state := s, calls := [], stop := false }
    | XEvent.MotionNotify x_root y_root =>
      if s.dragging then
        { state := s,
          calls := [XCall.XMoveWindow icon.window
            (int_sub x_root s.x_drag_start) (int_sub y_root s.y_drag_start)],
          stop := false }
      else { state := s, calls := [], stop := false }
    | XEvent.Expose => { state := s, calls := icon_draw icon, stop := false }
    | _ => { state := s, calls := [], stop := false }

/-- The outcome of the loop of `events_handle` on a finite stream of events. -/
structure LoopRun where
  state : LoopState
  calls : List XCall
  /-- The loop was left through `break`; otherwise it waits in `XNextEvent`. -/
  terminated : Bool
  deriving DecidableEq, Repr

/-- The loop of `events_handle` started in state `s` on the events `evs`. -/
def events_loop (srv : XServer) (icon : icon_td) : LoopState → List XEvent → LoopRun
  | s, [] => { state := s, calls := [], terminated := false }
  | s, e :: evs =>
    let r := events_step srv icon s e
    if r.stop then { state := r.state, calls := r.calls, terminated := true }
    else
      let rest := events_loop srv icon r.state evs
      { state := rest.state, calls := r.calls ++ rest.calls, terminated := rest.terminated }

/-- The state in which `events_handle` enters its loop in the first call of the
process: `dragging = False`, drag start `(0, 0)`, `last_click_time = 0`. -/
def events_init : LoopState :=
  { dragging := false, x_drag_start := 0, y_drag_start := 0, last_click_time := 0 }

/-- The function `events_handle` on the stream of events `evs`. -/
def events_handle (srv : XServer) (icon : icon_td) (evs : List XEvent) : LoopRun :=
  events_loop srv icon events_init evs

/-- An event that can arrive between a Button1 press and the matching release:
neither a Button1 press or release nor the close message. -/
def drag_neutral (srv : XServer) (e : XEvent) : Bool :=
  !is_delete_message srv e &&
    (match e with
     | XEvent.ButtonPress button _ _ => button != Button1
     | XEvent.ButtonRelease button _ _ _ => button != Button1
     | _ => true)

/-! ## Double precision arithmetic and `pixmap_scale`

The `double` values of `pixmap_scale` are modelled exactly.  A finite non-negative
`double` is `mant / 2 ^ scale`; division and multiplication round to nearest, ties
to even, with a 53-bit significand (IEEE 754 binary64, the arithmetic of x86-64).
The operands are `unsigned int` values, so quotients lie between `2^-32` and `2^32`
and products below `2^64`: neither underflow nor overflow occurs. -/

/-- The `XCopyArea(display, pixmap_orig, scaled_pixmap, gc, src_x, src_y, 1, 1,
(int) x, (int) y)` of the inner loop of `pixmap_scale`. -/
structure PixelCopy where
  src_x : Int
  src_y : Int
  dest_x : Int
  dest_y : Int
  deriving DecidableEq, Repr

/-- The pixmap returned by `pixmap_scale`: created `width` by `height`, filled
with the white pixel, then written by `copies` in program order. -/
structure ScaledPixmap where
  width : Nat
  height : Nat
  copies : List PixelCopy
  deriving DecidableEq, Repr

/-- A `double` that is finite and non-negative, `mant / 2 ^ scale`, or not finite
(an infinity or a NaN, the results of a division by zero). -/
inductive Double where
  | finite (mant scale : Nat)
  | not_finite
  deriving DecidableEq, Repr

/-- Auxiliary for `log2_floor`: at most `fuel` halvings. -/
def log2_floor_aux : Nat → Nat → Nat
  | 0, _ => 0
  | fuel + 1, n => if n < 2 then 0 else log2_floor_aux fuel (n / 2) + 1

/-- The position of the leading bit of `n`: the largest `k` with `2 ^ k ≤ n`. -/
def log2_floor (n : Nat) : Nat := log2_floor_aux n n

/-- The quotient `n / d` rounded to the nearest integer, ties to the even one. -/
def round_half_even (n d : Nat) : Nat :=
  if 2 * (n % d) > d ∨ (2 * (n % d) = d ∧ (n / d) % 2 = 1) then n / d + 1 else n / d

/-- The natural number `n` rounded to 53 significant bits. -/
def round53 (n : Nat) : Nat :=
  if n < 2 ^ 53 then n
  else round_half_even n (2 ^ (log2_floor n - 52)) * 2 ^ (log2_floor n - 52)

/-- The scale of the quotient `(double) a / (double) b`: the `s` for which the
significand `a * 2 ^ s / b` has 53 bits, that is `2 ^ 52 ≤ a * 2 ^ s / b < 2 ^ 53`. -/
def div_scale (a b : Nat) : Nat :=
  if a * 2 ^ (52 + log2_floor b - log2_floor a) < 2 ^ 52 * b
  then 52 + log2_floor b - log2_floor a + 1
  else 52 + log2_floor b - log2_floor a

/-- The division `(double) a / (double) b` of two `unsigned int` values. -/
def double_div (a b : Nat) : Double :=
  if b = 0 then Double.not_finite
  else if a = 0 then Double.finite 0 0
  else Double.finite (round_half_even (a * 2 ^ div_scale a b) b) (div_scale a b)

/-- The product `x * r` of an `unsigned int` (converted to `double`) and a `double`. -/
def double_mul (x : Nat) : Double → Double
  | Double.finite mant scale => Double.finite (round53 (x * mant)) scale
  | Double.not_finite => Double.not_finite

/-- The conversion `(int) d`: truncation; a value that no `int` holds gives
`INT_MIN`, as the conversion instruction of x86-64 does. -/
def double_to_int : Double → Int
  | Double.finite mant scale =>
    if mant / 2 ^ scale ≤ 2147483647 then ((mant / 2 ^ scale : Nat) : Int) else INT_MIN
  | Double.not_finite => INT_MIN

/-- The source coordinate `(int)(x * ratio)` with `ratio = (double) size_old /
(double) size_new`, as computed by `pixmap_scale` on either axis. -/
def src_coord (size_old size_new x : Nat) : Int :=
  double_to_int (double_mul x (double_div size_old size_new))

/-- The function `pixmap_scale`: the two nested loops, `y` outside and `x` inside. -/
def pixmap_scale (width_old height_old width_new height_new : Nat) : ScaledPixmap :=
  let x_ratio := double_div width_old width_new
  let y_ratio := double_div height_old height_new
  { width := width_new
    height := height_new
    copies := (List.range height_new).flatMap (fun y =>
      (List.range width_new).map (fun x =>
        { src_x := double_to_int (double_mul x x_ratio)
          src_y := double_to_int (double_mul y y_ratio)
          dest_x := uint_to_int x
          dest_y := uint_to_int y })) }

/-- The destination pixels of a scaled pixmap, row by row. -/
def dest_pixels (width_new height_new : Nat) : List (Int × Int) :=
  (List.range height_new).flatMap (fun (y : Nat) =>
    (List.range width_new).map (fun (x : Nat) => ((x : Int), (y : Int))))

/-! ## The pixels set by the drawing requests -/

/-- The pixel `(px, py)` lies in the rectangle with corner `(x, y)` and the given
size. -/
def in_rect (x y : Int) (width height : Nat) (px py : Int) : Bool :=
  decide (x ≤ px ∧ px < x + (width : Int) ∧ y ≤ py ∧ py < y + (height : Int))

/-- The font of a graphics context: `font text dx dy` tells whether a glyph of
`text` sets the pixel `dx` to the right of and `dy` below the origin of the text
(rows above the baseline have `dy < 0`). -/
abbrev Font := String → Int → Int → Bool

/-- The request sets the window pixel `(px, py)`: `XClearWindow` sets every pixel,
`XFillRectangle` the pixels of its rectangle, `XCopyArea` those of its destination
rectangle, and `XDrawString` the glyph pixels of its text, placed at its origin.
The graphics contexts of `icon_draw` have no clip mask, so the window alone bounds
a request. -/
def paints (font : Font) (c : XCall) (px py : Int) : Bool :=
  match c with
  | XCall.XClearWindow _ => true
  | XCall.XFillRectangle _ _ x y width height => in_rect x y width height px py
  | XCall.XCopyArea _ _ _ width height dest_x dest_y => in_rect dest_x dest_y width height px py
  | XCall.XDrawString _ _ x y text => font text (px - x) (py - y)
  | _ => false

/-- The last request of `calls` that sets the pixel `(px, py)`: the layer the
pixel shows once all requests are done. -/
def last_paint (font : Font) (calls : List XCall) (px py : Int) : Option XCall :=
  (calls.filter (fun c => paints font c px py)).getLast?

/-- The timestamp of the event is a `CARD32` of the X protocol, the only values
`XNextEvent` puts into the `time` field. -/
def card32_time (e : XEvent) : Bool :=
  match e with
  | XEvent.ButtonRelease _ _ _ time => decide (time < 4294967296)
  | _ => true

/-! ## Sample data -/

/-- A server with the hierarchy `7 → 3 → 1 → 0` (window 1 is the root): window 7
is viewable at `(10, 20)`, window 3 is unmapped at `(5, 5)`, window 1 is viewable
at `(0, 0)`. -/
def sample_server : XServer :=
  { XGetWindowAttributes := fun w =>
      if w = 7 then some { x := 10, y := 20, map_state := 2 }
      else if w = 3 then some { x := 5, y := 5, map_state := 0 }
      else if w = 1 then some { x := 0, y := 0, map_state := 2 }
      else none
    XQueryTree := fun w =>
      if w = 7 then some 3 else if w = 3 then some 1 else if w = 1 then some 0 else none
    XGetClassHint := fun _ => some "xterm"
    XCreateSimpleWindow := 9
    WM_DELETE_WINDOW := 300 }

/-- The record `icon_init` builds for window 7 with the settings of end-to-end
scenario 1: border 1, 32 x 32, caption shown. -/
def sample_icon_init : icon_td :=
  { window_orig := 7, window := none, pixmap := 8, prog_name := "xterm",
    path := "/usr/share/pixmaps/default.xpm", border := 1, width := 32, height := 32,
    x_pos := 240, y_pos := 240, bg := 16777215, fg := 0, fc := 0, show_text := true }

/-- The icon of window 7 once `icon_create` has made its window 9 at (10, 20). -/
def sample_icon : icon_td :=
  { sample_icon_init with window := some 9, x_pos := 10, y_pos := 20 }

/-- A server on which `XQueryTree` fails at window 3, the parent of window 7:
window 7 is viewable at `(10, 20)` and window 3 is viewable at `(30, 40)`. -/
def tree_failure_server : XServer :=
  { XGetWindowAttributes := fun w =>
      if w = 7 then some { x := 10, y := 20, map_state := 2 }
      else if w = 3 then some { x := 30, y := 40, map_state := 2 }
      else none
    XQueryTree := fun w => if w = 7 then some 3 else none
    XGetClassHint := fun _ => some "xterm"
    XCreateSimpleWindow := 9
    WM_DELETE_WINDOW := 300 }

/-- A server on which `XGetWindowAttributes` fails at window 3, the parent of
window 7; window 7 is viewable at `(10, 20)`. -/
def attributes_failure_server : XServer :=
  { XGetWindowAttributes := fun w =>
      if w = 7 then some { x := 10, y := 20, map_state := 2 } else none
    XQueryTree := fun w => if w = 7 then some 3 else if w = 3 then some 1 else none
    XGetClassHint := fun _ => some "xterm"
    XCreateSimpleWindow := 9
    WM_DELETE_WINDOW := 300 }

/-- A server with the hierarchy `7 → 1 → 0` in which window 7 is viewable at
`(-5, 100)` and the root window 1 is viewable at `(0, 0)`. -/
def negative_x_server : XServer :=
  { XGetWindowAttributes := fun w =>
      if w = 7 then some { x := -5, y := 100, map_state := 2 }
      else if w = 1 then some { x := 0, y := 0, map_state := 2 }
      else none
    XQueryTree := fun w => if w = 7 then some 1 else if w = 1 then some 0 else none
    XGetClassHint := fun _ => some "xterm"
    XCreateSimpleWindow := 9
    WM_DELETE_WINDOW := 300 }

/-- A font of cells 6 pixels wide: every character sets the columns 1 to 4 of its
cell on the ten rows that end at the baseline. -/
def sample_font : Font := fun text dx dy =>
  decide (0 ≤ dx ∧ dx < 6 * (text.length : Int) ∧ 1 ≤ dx % 6 ∧ dx % 6 ≤ 4 ∧ -9 ≤ dy ∧ dy ≤ 0)

/-- The sample icon with the border given as `-b -1`, stored as `(unsigned int) -1`. -/
def wrapped_border_icon : icon_td :=
  { sample_icon with border := 4294967295 }

/-! ## Arithmetic lemmas -/

theorem wrapInt_of_range (v : Int) (h : int_range v) : wrapInt v = v := by
  unfold int_range INT_MIN INT_MAX at h
  unfold wrapInt
  omega

theorem wrapInt_range (v : Int) : int_range (wrapInt v) := by
  unfold int_range INT_MIN INT_MAX wrapInt
  omega

theorem wrapInt_add_wrapInt (a b : Int) : wrapInt (wrapInt a + b) = wrapInt (a + b) := by
  unfold wrapInt
  omega

theorem int_sub_of_range (a b : Int) (h : int_range (a - b)) : int_sub a b = a - b :=
  wrapInt_of_range _ h

theorem int_abs_of_range (d : Int) (h : INT_MIN < d ∧ d ≤ INT_MAX) : int_abs d = |d| := by
  unfold INT_MIN INT_MAX at h
  unfold int_abs
  split
  · rename_i hneg
    rw [abs_of_neg hneg]
    apply wrapInt_of_range
    unfold int_range INT_MIN INT_MAX
    omega
  · rename_i hpos
    rw [abs_of_nonneg (by omega)]

theorem int_abs_int_sub (a b : Int) (h : INT_MIN < a - b ∧ a - b ≤ INT_MAX) :
    int_abs (int_sub a b) = |a - b| := by
  rw [int_sub_of_range a b ⟨le_of_lt h.1, h.2⟩, int_abs_of_range _ h]

theorem small_displacement_range (d : Int) (h : |d| ≤ 5) : INT_MIN < d ∧ d ≤ INT_MAX := by
  have h1 := abs_le.mp h
  unfold INT_MIN INT_MAX
  omega

theorem ulong_sub_of_le (a b : Nat) (hba : b ≤ a) (ha : a < ULONG_MOD) :
    ulong_sub a b = a - b := by
  unfold ULONG_MOD at ha
  unfold ulong_sub ULONG_MOD
  omega

/-! ## Lemmas on the event loop -/

theorem events_loop_cons_stop (srv : XServer) (icon : icon_td) (s : LoopState) (e : XEvent)
    (evs : List XEvent) (h : (events_step srv icon s e).stop = true) :
    events_loop srv icon s (e :: evs) =
      { state := (events_step srv icon s e).state, calls := (events_step srv icon s e).calls,
        terminated := true } := by
  simp [events_loop, h]

theorem events_loop_cons_continue (srv : XServer) (icon : icon_td) (s : LoopState) (e : XEvent)
    (evs : List XEvent) (h : (events_step srv icon s e).stop = false) :
    events_loop srv icon s (e :: evs) =
      { state := (events_loop srv icon (events_step srv icon s e).state evs).state,
        calls := (events_step srv icon s e).calls
          ++ (events_loop srv icon (events_step srv icon s e).state evs).calls,
        terminated := (events_loop srv icon (events_step srv icon s e).state evs).terminated } := by
  simp [events_loop, h]

/-- The loop on `hist ++ evs`, when it does not terminate within `hist`, carries on
with `evs` from the state reached after `hist`. -/
theorem events_loop_append (srv : XServer) (icon : icon_td) (hist evs : List XEvent) :
    ∀ s : LoopState, (events_loop srv icon s hist).terminated = false →
      events_loop srv icon s (hist ++ evs) =
        { state := (events_loop srv icon (events_loop srv icon s hist).state evs).state,
          calls := (events_loop srv icon s hist).calls
            ++ (events_loop srv icon (events_loop srv icon s hist).state evs).calls,
          terminated :=
            (events_loop srv icon (events_loop srv icon s hist).state evs).terminated } := by
  induction hist with
  | nil => intro s _; simp [events_loop]
  | cons e hist ih =>
    intro s h
    by_cases hstop : (events_step srv icon s e).stop = true
    · rw [events_loop_cons_stop srv icon s e hist hstop] at h
      simp at h
    · have hcont : (events_step srv icon s e).stop = false := by simpa using hstop
      rw [events_loop_cons_continue srv icon s e hist hcont] at h
      simp only at h
      rw [List.cons_append, events_loop_cons_continue srv icon s e (hist ++ evs) hcont,
        ih _ h, events_loop_cons_continue srv icon s e hist hcont]
      simp [List.append_assoc]

/-- The outcome of a Button1 release that passes the 5 px test. -/
theorem events_step_release_click (srv : XServer) (icon : icon_td) (s : LoopState)
    (x y : Int) (t : Nat)
    (hx : |x - s.x_drag_start| ≤ 5) (hy : |y - s.y_drag_start| ≤ 5) :
    events_step srv icon s (XEvent.ButtonRelease Button1 x y t) =
      if ulong_sub t s.last_click_time ≤ 500 then
        { state := { s with dragging := false }, calls := window_restore icon, stop := true }
      else
        { state := { s with dragging := false, last_click_time := t }, calls := [],
          stop := false } := by
  have h1 : int_abs (int_sub x s.x_drag_start) ≤ 5 := by
    rw [int_abs_int_sub _ _ (small_displacement_range _ hx)]; exact hx
  have h2 : int_abs (int_sub y s.y_drag_start) ≤ 5 := by
    rw [int_abs_int_sub _ _ (small_displacement_range _ hy)]; exact hy
  simp [events_step, is_delete_message, h1, h2]

/-- The outcome of a Button1 release that fails the 5 px test. -/
theorem events_step_release_drag (srv : XServer) (icon : icon_td) (s : LoopState)
    (x y : Int) (t : Nat)
    (hrx : INT_MIN < x - s.x_drag_start ∧ x - s.x_drag_start ≤ INT_MAX)
    (hry : INT_MIN < y - s.y_drag_start ∧ y - s.y_drag_start ≤ INT_MAX)
    (h : 5 < |x - s.x_drag_start| ∨ 5 < |y - s.y_drag_start|) :
    events_step srv icon s (XEvent.ButtonRelease Button1 x y t) =
      { state := { s with dragging := false }, calls := [], stop := false } := by
  have hn : ¬ (int_abs (int_sub x s.x_drag_start) ≤ 5
      ∧ int_abs (int_sub y s.y_drag_start) ≤ 5) := by
    rw [int_abs_int_sub _ _ hrx, int_abs_int_sub _ _ hry]
    rcases h with h | h
    · intro hc; exact absurd hc.1 (not_le.mpr h)
    · intro hc; exact absurd hc.2 (not_le.mpr h)
  simp [events_step, is_delete_message, hn]

theorem events_step_drag_neutral (srv : XServer) (icon : icon_td) (s : LoopState) (e : XEvent)
    (h : drag_neutral srv e = true) :
    (events_step srv icon s e).state = s ∧ (events_step srv icon s e).stop = false := by
  unfold drag_neutral at h
  cases e <;> simp_all [events_step]
  split <;> simp

theorem events_loop_drag_neutral (srv : XServer) (icon : icon_td) (mid : List XEvent) :
    ∀ s : LoopState, (∀ e ∈ mid, drag_neutral srv e = true) →
      (events_loop srv icon s mid).state = s
        ∧ (events_loop srv icon s mid).terminated = false := by
  induction mid with
  | nil => intro s _; simp [events_loop]
  | cons e mid ih =>
    intro s h
    have he := events_step_drag_neutral srv icon s e (h e (List.mem_cons_self e mid))
    have hrest := ih (events_step srv icon s e).state
      (fun e1 h1 => h e1 (List.mem_cons_of_mem e h1))
    rw [events_loop_cons_continue srv icon s e mid he.2]
    simp only
    rw [he.1] at hrest
    rw [he.1]
    exact hrest

/-! ## The interaction loop: claims C1 to C4 -/

/-- C1: a Button1 release within 5 px of the recorded press point on both axes, with
timestamp `t` not before the stored previous-click time `last`: when `t - last ≤ 500`
the iteration calls `window_restore` (the icon window is unmapped, the original
window mapped) and leaves the loop; otherwise nothing is restored, the loop goes on
and the stored time becomes `t`.  Two clicks 200 ms or 100 ms apart restore on the
second, two clicks 900 ms apart do not and leave the second timestamp stored. -/
theorem events_handle_click_interval (srv : XServer) (icon : icon_td) (s : LoopState)
    (x y : Int) (t : Nat) (rest : List XEvent)
    (hx : |x - s.x_drag_start| ≤ 5) (hy : |y - s.y_drag_start| ≤ 5)
    (hlast : s.last_click_time ≤ t) (ht : t < ULONG_MOD) :
    (t - s.last_click_time ≤ 500 →
      events_step srv icon s (XEvent.ButtonRelease Button1 x y t) =
        { state := { s with dragging := false },
          calls := [XCall.XUnmapWindow icon.window, XCall.XMapWindow (some icon.window_orig)],
          stop := true }
      ∧ events_loop srv icon s (XEvent.ButtonRelease Button1 x y t :: rest) =
        { state := { s with dragging := false },
          calls := [XCall.XUnmapWindow icon.window, XCall.XMapWindow (some icon.window_orig)],
          terminated := true })
    ∧ (500 < t - s.last_click_time →
      events_step srv icon s (XEvent.ButtonRelease Button1 x y t) =
        { state := { s with dragging := false, last_click_time := t }, calls := [],
          stop := false }
      ∧ events_loop srv icon s (XEvent.ButtonRelease Button1 x y t :: rest) =
        events_loop srv icon { s with dragging := false, last_click_time := t } rest)
    ∧ events_handle srv icon
        [XEvent.ButtonPress Button1 100 100, XEvent.ButtonRelease Button1 100 100 1000,
         XEvent.ButtonPress Button1 100 100, XEvent.ButtonRelease Button1 100 100 1200] =
        { state := { dragging := false, x_drag_start := 100, y_drag_start := 100,
                     last_click_time := 1000 },
          calls := [XCall.XUnmapWindow icon.window, XCall.XMapWindow (some icon.window_orig)],
          terminated := true }
    ∧ events_handle srv icon
        [XEvent.ButtonPress Button1 100 100, XEvent.ButtonRelease Button1 100 100 5000,
         XEvent.ButtonPress Button1 100 100, XEvent.ButtonRelease Button1 102 101 5100] =
        { state := { dragging := false, x_drag_start := 100, y_drag_start := 100,
                     last_click_time := 5000 },
          calls := [XCall.XUnmapWindow icon.window, XCall.XMapWindow (some icon.window_orig)],
          terminated := true }
    ∧ events_handle srv icon
        [XEvent.ButtonPress Button1 100 100, XEvent.ButtonRelease Button1 100 100 1000,
         XEvent.ButtonPress Button1 100 100, XEvent.ButtonRelease Button1 100 100 1900] =
        { state := { dragging := false, x_drag_start := 100, y_drag_start := 100,
                     last_click_time := 1900 },
          calls := [], terminated := false } := by
  have hstep := events_step_release_click srv icon s x y t hx hy
  rw [ulong_sub_of_le t s.last_click_time hlast ht] at hstep
  refine ⟨?_, ?_, ?_, ?_, ?_⟩
  · intro h
    rw [if_pos h] at hstep
    refine ⟨by rw [hstep]; rfl, ?_⟩
    rw [events_loop_cons_stop srv icon s _ rest (by rw [hstep]), hstep]
    rfl
  · intro h
    rw [if_neg (not_le.mpr h)] at hstep
    refine ⟨hstep, ?_⟩
    rw [events_loop_cons_continue srv icon s _ rest (by rw [hstep]), hstep]
    simp
  · simp [events_handle, events_loop, events_step, is_delete_message, events_init, int_abs,
      int_sub, wrapInt, ulong_sub, ULONG_MOD, window_restore]
  · simp [events_handle, events_loop, events_step, is_delete_message, events_init, int_abs,
      int_sub, wrapInt, ulong_sub, ULONG_MOD, window_restore]
  · simp [events_handle, events_loop, events_step, is_delete_message, events_init, int_abs,
      int_sub, wrapInt, ulong_sub, ULONG_MOD, window_restore]

/-- Witness of C1 on the sample icon: a release at (102, 101), 100 ms after the
stored click time, for a press recorded at (100, 100). -/
theorem events_handle_click_interval_witness :
    (|(102 : Int) - 100| ≤ 5 ∧ |(101 : Int) - 100| ≤ 5 ∧ (5000 : Nat) ≤ 5100
      ∧ 5100 < ULONG_MOD ∧ 5100 - 5000 ≤ 500)
    ∧ events_step sample_server sample_icon
        { dragging := true, x_drag_start := 100, y_drag_start := 100, last_click_time := 5000 }
        (XEvent.ButtonRelease Button1 102 101 5100) =
        { state := { dragging := false, x_drag_start := 100, y_drag_start := 100,
                     last_click_time := 5000 },
          calls := [XCall.XUnmapWindow (some 9), XCall.XMapWindow (some 7)],
          stop := true } :=
  ⟨by decide,
   ((events_handle_click_interval sample_server sample_icon
      { dragging := true, x_drag_start := 100, y_drag_start := 100, last_click_time := 5000 }
      102 101 5100 [] (by decide) (by decide) (by decide) (by decide)).1 (by decide)).1⟩

/-- C2: a Button1 release displaced by more than 5 px from the recorded press point
on at least one axis (the `int` difference being representable) is a plain drag end:
`dragging` becomes `False`, nothing is restored, the loop goes on and the stored
click time is left as it was; a displacement of (10, 0) is such a drag end, while a
displacement of (3, 3) enters the click branch. -/
theorem events_handle_drag_end (srv : XServer) (icon : icon_td) (s : LoopState)
    (x y : Int) (t : Nat) (rest : List XEvent)
    (hrx : INT_MIN < x - s.x_drag_start ∧ x - s.x_drag_start ≤ INT_MAX)
    (hry : INT_MIN < y - s.y_drag_start ∧ y - s.y_drag_start ≤ INT_MAX)
    (h : 5 < |x - s.x_drag_start| ∨ 5 < |y - s.y_drag_start|) :
    events_step srv icon s (XEvent.ButtonRelease Button1 x y t) =
      { state := { dragging := false, x_drag_start := s.x_drag_start,
                   y_drag_start := s.y_drag_start, last_click_time := s.last_click_time },
        calls := [], stop := false }
    ∧ events_loop srv icon s (XEvent.ButtonRelease Button1 x y t :: rest) =
        events_loop srv icon { s with dragging := false } rest
    ∧ events_step srv icon s
        (XEvent.ButtonRelease Button1 (s.x_drag_start + 10) s.y_drag_start t) =
        { state := { s with dragging := false }, calls := [], stop := false }
    ∧ events_step srv icon s
        (XEvent.ButtonRelease Button1 (s.x_drag_start + 3) (s.y_drag_start + 3) t) =
        (if ulong_sub t s.last_click_time ≤ 500 then
          { state := { s with dragging := false }, calls := window_restore icon, stop := true }
        else
          { state := { s with dragging := false, last_click_time := t }, calls := [],
            stop := false })
    ∧ events_handle srv icon
        [XEvent.ButtonPress Button1 100 100, XEvent.ButtonRelease Button1 110 100 200] =
        { state := { dragging := false, x_drag_start := 100, y_drag_start := 100,
                     last_click_time := 0 },
          calls := [], terminated := false }
    ∧ events_handle srv icon
        [XEvent.ButtonPress Button1 100 100, XEvent.ButtonRelease Button1 103 103 200] =
        { state := { dragging := false, x_drag_start := 100, y_drag_start := 100,
                     last_click_time := 0 },
          calls := [XCall.XUnmapWindow icon.window, XCall.XMapWindow (some icon.window_orig)],
          terminated := true } := by
  have hstep := events_step_release_drag srv icon s x y t hrx hry h
  refine ⟨hstep, ?_, ?_, ?_, ?_, ?_⟩
  · rw [events_loop_cons_continue srv icon s _ rest (by rw [hstep]), hstep]
    simp
  · apply events_step_release_drag
    · unfold INT_MIN INT_MAX; omega
    · unfold INT_MIN INT_MAX; omega
    · left
      have h10 : s.x_drag_start + 10 - s.x_drag_start = 10 := by omega
      rw [h10]; decide
  · apply events_step_release_click
    · have h3 : s.x_drag_start + 3 - s.x_drag_start = 3 := by omega
      rw [h3]; decide
    · have h3 : s.y_drag_start + 3 - s.y_drag_start = 3 := by omega
      rw [h3]; decide
  · simp [events_handle, events_loop, events_step, is_delete_message, events_init, int_abs,
      int_sub, wrapInt, ulong_sub, ULONG_MOD, window_restore]
  · simp [events_handle, events_loop, events_step, is_delete_message, events_init, int_abs,
      int_sub, wrapInt, ulong_sub, ULONG_MOD, window_restore]

/-- Witness of C2: a release at (110, 100) for a press recorded at (100, 100), with
a click stored 100 ms earlier. -/
theorem events_handle_drag_end_witness :
    ((INT_MIN < (110 : Int) - 100 ∧ (110 : Int) - 100 ≤ INT_MAX)
      ∧ (INT_MIN < (100 : Int) - 100 ∧ (100 : Int) - 100 ≤ INT_MAX)
      ∧ (5 < |(110 : Int) - 100| ∨ 5 < |(100 : Int) - 100|))
    ∧ events_step sample_server sample_icon
        { dragging := true, x_drag_start := 100, y_drag_start := 100, last_click_time := 5000 }
        (XEvent.ButtonRelease Button1 110 100 5100) =
        { state := { dragging := false, x_drag_start := 100, y_drag_start := 100,
                     last_click_time := 5000 },
          calls := [], stop := false } :=
  ⟨by decide,
   (events_handle_drag_end sample_server sample_icon
      { dragging := true, x_drag_start := 100, y_drag_start := 100, last_click_time := 5000 }
      110 100 5100 [] (by decide) (by decide) (by decide)).1⟩

/-- C3: in every state and after every event history that has not ended the loop, a
`ClientMessage` whose first data word is the `WM_DELETE_WINDOW` atom (an X11 atom,
hence below `2^32`) ends the loop at once and issues no request: `window_restore` is
not called, the original window is not mapped and the icon window is not unmapped. -/
theorem events_handle_delete_window (srv : XServer) (icon : icon_td) (s : LoopState)
    (hist rest : List XEvent)
    (hatom : srv.WM_DELETE_WINDOW < UINT_MOD)
    (hhist : (events_loop srv icon s hist).terminated = false) :
    events_step srv icon s (XEvent.ClientMessage (srv.WM_DELETE_WINDOW : Int)) =
      { state := s, calls := [], stop := true }
    ∧ events_loop srv icon s
        (hist ++ XEvent.ClientMessage (srv.WM_DELETE_WINDOW : Int) :: rest) =
        { state := (events_loop srv icon s hist).state,
          calls := (events_loop srv icon s hist).calls,
          terminated := true }
    ∧ events_handle srv icon
        [XEvent.ButtonPress Button1 10 10, XEvent.MotionNotify 50 60,
         XEvent.ClientMessage (srv.WM_DELETE_WINDOW : Int)] =
        { state := { dragging := true, x_drag_start := 10, y_drag_start := 10,
                     last_click_time := 0 },
          calls := [XCall.XMoveWindow icon.window 40 50],
          terminated := true } := by
  have hmsg : is_delete_message srv (XEvent.ClientMessage (srv.WM_DELETE_WINDOW : Int)) = true := by
    simp [is_delete_message, ulong_to_uint, Nat.mod_eq_of_lt hatom]
  have hstep : ∀ s1 : LoopState,
      events_step srv icon s1 (XEvent.ClientMessage (srv.WM_DELETE_WINDOW : Int)) =
        { state := s1, calls := [], stop := true } := by
    intro s1; simp [events_step, hmsg]
  refine ⟨hstep s, ?_, ?_⟩
  · rw [events_loop_append srv icon hist _ s hhist,
      events_loop_cons_stop srv icon _ _ rest (by rw [hstep]), hstep]
    simp
  · simp [events_handle, events_loop, events_step, is_delete_message, events_init, int_sub,
      wrapInt, ulong_to_uint, Nat.mod_eq_of_lt hatom]

/-- Witness of C3: the close message of the sample server after a Button1 press. -/
theorem events_handle_delete_window_witness :
    (sample_server.WM_DELETE_WINDOW < UINT_MOD
      ∧ (events_loop sample_server sample_icon events_init
          [XEvent.ButtonPress Button1 10 10]).terminated = false)
    ∧ events_loop sample_server sample_icon events_init
        ([XEvent.ButtonPress Button1 10 10] ++ XEvent.ClientMessage (300 : Int) :: [XEvent.Expose]) =
        { state := { dragging := true, x_drag_start := 10, y_drag_start := 10,
                     last_click_time := 0 },
          calls := [], terminated := true } :=
  ⟨by decide,
   (events_handle_delete_window sample_server sample_icon events_init
      [XEvent.ButtonPress Button1 10 10] [XEvent.Expose] (by decide) (by decide)).2.1⟩

/-- C4: after a Button1 press at the window-relative point `(xp, yp)` and any events
that are neither a Button1 press or release nor the close message, a pointer motion
with root coordinates `(xr, yr)` (the `int` differences being representable) moves
the icon window to exactly `(xr - xp, yr - yp)`; the state stays `Dragging` and the
recorded press point is still `(xp, yp)`. -/
theorem events_handle_motion_moves (srv : XServer) (icon : icon_td) (s : LoopState)
    (xp yp xr yr : Int) (mid rest : List XEvent)
    (hmid : ∀ e ∈ mid, drag_neutral srv e = true)
    (hx : int_range (xr - xp)) (hy : int_range (yr - yp)) :
    events_step srv icon
        { dragging := true, x_drag_start := xp, y_drag_start := yp,
          last_click_time := s.last_click_time }
        (XEvent.MotionNotify xr yr) =
      { state := { dragging := true, x_drag_start := xp, y_drag_start := yp,
                   last_click_time := s.last_click_time },
        calls := [XCall.XMoveWindow icon.window (xr - xp) (yr - yp)],
        stop := false }
    ∧ events_loop srv icon s
        (XEvent.ButtonPress Button1 xp yp :: (mid ++ [XEvent.MotionNotify xr yr])) =
      { state := { dragging := true, x_drag_start := xp, y_drag_start := yp,
                   last_click_time := s.last_click_time },
        calls := (events_loop srv icon
            { dragging := true, x_drag_start := xp, y_drag_start := yp,
              last_click_time := s.last_click_time } mid).calls
          ++ [XCall.XMoveWindow icon.window (xr - xp) (yr - yp)],
        terminated := false }
    ∧ events_loop srv icon s
        (XEvent.ButtonPress Button1 xp yp :: (mid ++ XEvent.MotionNotify xr yr :: rest)) =
      { state := (events_loop srv icon
            { dragging := true, x_drag_start := xp, y_drag_start := yp,
              last_click_time := s.last_click_time } rest).state,
        calls := (events_loop srv icon
            { dragging := true, x_drag_start := xp, y_drag_start := yp,
              last_click_time := s.last_click_time } mid).calls
          ++ XCall.XMoveWindow icon.window (xr - xp) (yr - yp)
          :: (events_loop srv icon
            { dragging := true, x_drag_start := xp, y_drag_start := yp,
              last_click_time := s.last_click_time } rest).calls,
        terminated := (events_loop srv icon
            { dragging := true, x_drag_start := xp, y_drag_start := yp,
              last_click_time := s.last_click_time } rest).terminated } := by
  have hmotion : ∀ d : LoopState, d.dragging = true → d.x_drag_start = xp →
      d.y_drag_start = yp →
      events_step srv icon d (XEvent.MotionNotify xr yr) =
        { state := d, calls := [XCall.XMoveWindow icon.window (xr - xp) (yr - yp)],
          stop := false } := by
    intro d hd hdx hdy
    simp [events_step, is_delete_message, hd, hdx, hdy, int_sub_of_range _ _ hx,
      int_sub_of_range _ _ hy]
  have hpress : events_step srv icon s (XEvent.ButtonPress Button1 xp yp) =
      { state := { dragging := true, x_drag_start := xp, y_drag_start := yp,
                   last_click_time := s.last_click_time },
        calls := [], stop := false } := by
    simp [events_step, is_delete_message]
  have hall : ∀ tail : List XEvent,
      events_loop srv icon s
        (XEvent.ButtonPress Button1 xp yp :: (mid ++ XEvent.MotionNotify xr yr :: tail)) =
      { state := (events_loop srv icon
            { dragging := true, x_drag_start := xp, y_drag_start := yp,
              last_click_time := s.last_click_time } tail).state,
        calls := (events_loop srv icon
            { dragging := true, x_drag_start := xp, y_drag_start := yp,
              last_click_time := s.last_click_time } mid).calls
          ++ XCall.XMoveWindow icon.window (xr - xp) (yr - yp)
          :: (events_loop srv icon
            { dragging := true, x_drag_start := xp, y_drag_start := yp,
              last_click_time := s.last_click_time } tail).calls,
        terminated := (events_loop srv icon
            { dragging := true, x_drag_start := xp, y_drag_start := yp,
              last_click_time := s.last_click_time } tail).terminated } := by
    intro tail
    have hneutral := events_loop_drag_neutral srv icon mid
      { dragging := true, x_drag_start := xp, y_drag_start := yp,
        last_click_time := s.last_click_time } hmid
    rw [events_loop_cons_continue srv icon s _ _ (by rw [hpress]), hpress]
    simp only [List.nil_append]
    rw [events_loop_append srv icon mid _ _ hneutral.2, hneutral.1,
      events_loop_cons_continue srv icon _ _ tail (by rw [hmotion _ rfl rfl rfl]),
      hmotion _ rfl rfl rfl]
    simp
  refine ⟨hmotion _ rfl rfl rfl, ?_, hall rest⟩
  rw [hall []]
  simp [events_loop]

/-- Witness of C4: press at (10, 12), an exposure, then a motion at root (300, 200). -/
theorem events_handle_motion_moves_witness :
    ((∀ e ∈ [XEvent.Expose], drag_neutral sample_server e = true)
      ∧ int_range ((300 : Int) - 10) ∧ int_range ((200 : Int) - 12))
    ∧ events_step sample_server sample_icon
        { dragging := true, x_drag_start := 10, y_drag_start := 12, last_click_time := 0 }
        (XEvent.MotionNotify 300 200) =
      { state := { dragging := true, x_drag_start := 10, y_drag_start := 12,
                   last_click_time := 0 },
        calls := [XCall.XMoveWindow (some 9) 290 188],
        stop := false } :=
  ⟨by decide,
   (events_handle_motion_moves sample_server sample_icon events_init 10 12 300 200
      [XEvent.Expose] [] (by decide) (by decide) (by decide)).1⟩

/-! ## Lemmas on the ancestor walk -/

theorem hierarchy_walk_zero (srv : XServer) (fuel : Nat) (ax ay : Int) :
    hierarchy_walk srv fuel 0 ax ay = some (WalkResult.finished ax ay false) := by
  cases fuel <;> simp [hierarchy_walk]

theorem viewable_sum_x_cons (a : XWindowAttributes) (chain : List XWindowAttributes) :
    viewable_sum_x (a :: chain) =
      (if a.map_state = IsViewable then a.x else 0) + viewable_sum_x chain := by
  unfold viewable_sum_x
  by_cases h : a.map_state = IsViewable <;> simp [List.filter_cons, h]

theorem viewable_sum_y_cons (a : XWindowAttributes) (chain : List XWindowAttributes) :
    viewable_sum_y (a :: chain) =
      (if a.map_state = IsViewable then a.y else 0) + viewable_sum_y chain := by
  unfold viewable_sum_y
  by_cases h : a.map_state = IsViewable <;> simp [List.filter_cons, h]

theorem viewable_sum_x_append (c1 c2 : List XWindowAttributes) :
    viewable_sum_x (c1 ++ c2) = viewable_sum_x c1 + viewable_sum_x c2 := by
  simp [viewable_sum_x, List.filter_append]

theorem viewable_sum_y_append (c1 c2 : List XWindowAttributes) :
    viewable_sum_y (c1 ++ c2) = viewable_sum_y c1 + viewable_sum_y c2 := by
  simp [viewable_sum_y, List.filter_append]

/-- Along a chain of windows on which every query succeeds, the walk spends one
iteration per window and adds the offsets of the viewable ones. -/
theorem hierarchy_walk_chain (srv : XServer) (target : Window) (fuel : Nat)
    (chain : List XWindowAttributes) :
    ∀ (current_window : Window) (ax ay : Int), int_range ax → int_range ay →
      walk_chain srv current_window chain target = true →
      hierarchy_walk srv (chain.length + fuel) current_window ax ay =
        hierarchy_walk srv fuel target (wrapInt (ax + viewable_sum_x chain))
          (wrapInt (ay + viewable_sum_y chain)) := by
  induction chain with
  | nil =>
    intro cur ax ay hax hay h
    simp only [walk_chain, decide_eq_true_eq] at h
    simp [viewable_sum_x, viewable_sum_y, wrapInt_of_range _ hax, wrapInt_of_range _ hay, h]
  | cons a chain ih =>
    intro cur ax ay hax hay h
    simp only [walk_chain, Bool.and_eq_true, decide_eq_true_eq] at h
    obtain ⟨⟨hcur, hattr⟩, htree⟩ := h
    cases hq : srv.XQueryTree cur with
    | none => rw [hq] at htree; simp at htree
    | some parent =>
      rw [hq] at htree
      simp only at htree
      have hlen : (a :: chain).length + fuel = (chain.length + fuel) + 1 := by
        simp [List.length_cons]; omega
      rw [hlen, hierarchy_walk]
      simp only [hcur, if_false, hattr, hq]
      rw [viewable_sum_x_cons, viewable_sum_y_cons]
      by_cases hv : a.map_state = IsViewable
      · simp only [hv, if_true]
        unfold int_add
        rw [ih parent _ _ (wrapInt_range _) (wrapInt_range _) htree]
        rw [wrapInt_add_wrapInt, wrapInt_add_wrapInt, add_assoc, add_assoc]
      · simp only [hv, if_false]
        rw [ih parent _ _ hax hay htree, zero_add, zero_add]

theorem int_range_zero : int_range 0 := by
  unfold int_range INT_MIN INT_MAX; omega

/-- The walk from the original window along a chain that ends at the root. -/
theorem hierarchy_walk_to_root (srv : XServer) (fuel : Nat) (w : Window)
    (chain : List XWindowAttributes)
    (hchain : walk_chain srv w chain 0 = true) (hfuel : chain.length ≤ fuel) :
    hierarchy_walk srv fuel w 0 0 =
      some (WalkResult.finished (wrapInt (viewable_sum_x chain))
        (wrapInt (viewable_sum_y chain)) false) := by
  obtain ⟨k, rfl⟩ := Nat.exists_eq_add_of_le hfuel
  rw [hierarchy_walk_chain srv 0 k chain w 0 0 int_range_zero int_range_zero hchain,
    hierarchy_walk_zero, zero_add, zero_add]

/-- The walk along a chain that ends at a window whose attributes cannot be read. -/
theorem hierarchy_walk_attributes_failure (srv : XServer) (fuel : Nat) (w target : Window)
    (chain : List XWindowAttributes)
    (hchain : walk_chain srv w chain target = true) (htarget : target ≠ 0)
    (hattr : srv.XGetWindowAttributes target = none) (hfuel : chain.length < fuel) :
    hierarchy_walk srv fuel w 0 0 = some WalkResult.attributes_failed := by
  obtain ⟨k, rfl⟩ := Nat.exists_eq_add_of_lt hfuel
  have hk : chain.length + k + 1 = chain.length + (k + 1) := by omega
  rw [hk, hierarchy_walk_chain srv target (k + 1) chain w 0 0 int_range_zero int_range_zero
    hchain, hierarchy_walk]
  simp [htarget, hattr]

/-- The walk along a chain that ends at a window whose attributes are `a` and on
which `XQueryTree` fails. -/
theorem hierarchy_walk_tree_failure (srv : XServer) (fuel : Nat) (w target : Window)
    (chain : List XWindowAttributes) (a : XWindowAttributes)
    (hchain : walk_chain srv w chain target = true) (htarget : target ≠ 0)
    (hattr : srv.XGetWindowAttributes target = some a)
    (htree : srv.XQueryTree target = none) (hfuel : chain.length < fuel) :
    hierarchy_walk srv fuel w 0 0 =
      some (WalkResult.finished (wrapInt (viewable_sum_x (chain ++ [a])))
        (wrapInt (viewable_sum_y (chain ++ [a]))) true) := by
  obtain ⟨k, rfl⟩ := Nat.exists_eq_add_of_lt hfuel
  have hk : chain.length + k + 1 = chain.length + (k + 1) := by omega
  rw [hk, hierarchy_walk_chain srv target (k + 1) chain w 0 0 int_range_zero int_range_zero
    hchain, hierarchy_walk]
  simp only [htarget, if_false, hattr, htree]
  rw [viewable_sum_x_append, viewable_sum_y_append, viewable_sum_x_cons, viewable_sum_y_cons]
  by_cases hv : a.map_state = IsViewable
  · simp [hv, int_add, wrapInt_add_wrapInt, viewable_sum_x, viewable_sum_y]
  · simp [hv, viewable_sum_x, viewable_sum_y, wrapInt_of_range _ (wrapInt_range _)]

/-- The requests of `icon_place` create exactly one window, with the computed
position and size. -/
theorem created_windows_icon_place (srv : XServer) (icon : icon_td) (ax ay : Int) :
    created_windows (icon_place srv icon ax ay).2 =
      [(if ax < 0 then 240 else ax, if ay < 0 then 240 else ay,
        (icon.width + 2 * icon.border) % UINT_MOD,
        (icon.height + 2 * icon.border + (if icon.show_text then 20 else 0)) % UINT_MOD)] := by
  have hw : uint_add icon.width (uint_mul 2 icon.border)
      = (icon.width + 2 * icon.border) % UINT_MOD := by
    unfold uint_add uint_mul UINT_MOD; omega
  have hh : uint_add (uint_add icon.height (text_height icon)) (uint_mul 2 icon.border)
      = (icon.height + 2 * icon.border + (if icon.show_text then 20 else 0)) % UINT_MOD := by
    unfold uint_add uint_mul UINT_MOD text_height DEFAULT_TEXT_HEIGHT
    split <;> omega
  unfold icon_place icon_draw
  simp only [hw, hh]
  by_cases hb : icon.border > 0 <;> by_cases ht : icon.show_text = true <;>
    simp [created_windows, hb, ht]

theorem icon_create_of_walk (srv : XServer) (fuel : Nat) (icon : icon_td) (ax ay : Int)
    (tf : Bool)
    (hwalk : hierarchy_walk srv fuel icon.window_orig 0 0 =
      some (WalkResult.finished ax ay tf)) :
    icon_create srv fuel icon =
      some ((icon_place srv icon ax ay).1,
        (if tf then [XCall.fprintf_stderr "Cannot obtain window hierarchy\n"] else [])
          ++ (icon_place srv icon ax ay).2) := by
  simp [icon_create, hwalk]

theorem created_windows_stderr_append (msg : String) (tf : Bool) (calls : List XCall) :
    created_windows ((if tf then [XCall.fprintf_stderr msg] else []) ++ calls) =
      created_windows calls := by
  cases tf <;> simp [created_windows]

/-! ## Icon creation: claims C5 to C10 -/

/-- C5: whenever the ancestor walk of `icon_create` ends without a failed
`XGetWindowAttributes`, `icon_create` creates exactly one window, of width
`width + 2*border` and height `height + 2*border + (20 if show_text else 0)` in
unsigned 32-bit arithmetic; border 1, width 32, height 32 with the caption gives a
34 x 54 window, and for 32 x 32 icons the relation holds for borders 0, 1 and 5
with both caption settings. -/
theorem icon_create_window_size (srv : XServer) (fuel : Nat) (icon : icon_td) (ax ay : Int)
    (tf : Bool)
    (hwalk : hierarchy_walk srv fuel icon.window_orig 0 0 =
      some (WalkResult.finished ax ay tf)) :
    (∃ r : icon_td × List XCall, icon_create srv fuel icon = some r
      ∧ created_windows r.2 =
        [(if ax < 0 then 240 else ax, if ay < 0 then 240 else ay,
          (icon.width + 2 * icon.border) % UINT_MOD,
          (icon.height + 2 * icon.border + (if icon.show_text then 20 else 0)) % UINT_MOD)])
    ∧ (icon_create sample_server 3 sample_icon_init).map (fun r => created_windows r.2)
        = some [(10, 20, 34, 54)]
    ∧ (∀ b ∈ [0, 1, 5], ∀ show_text : Bool,
        (icon_create sample_server 3
            { sample_icon_init with border := b, show_text := show_text }).map
          (fun r => created_windows r.2)
        = some [(10, 20, 32 + 2 * b, 32 + 2 * b + (if show_text then 20 else 0))]) := by
  refine ⟨⟨_, icon_create_of_walk srv fuel icon ax ay tf hwalk, ?_⟩, ?_, ?_⟩
  · rw [created_windows_stderr_append, created_windows_icon_place]
  · decide
  · decide

/-- Witness of C5: the sample icon on the sample server. -/
theorem icon_create_window_size_witness :
    hierarchy_walk sample_server 3 sample_icon_init.window_orig 0 0 =
      some (WalkResult.finished 10 20 false)
    ∧ ∃ r : icon_td × List XCall, icon_create sample_server 3 sample_icon_init = some r
      ∧ created_windows r.2 =
        [(if (10 : Int) < 0 then 240 else 10, if (20 : Int) < 0 then 240 else 20,
          (sample_icon_init.width + 2 * sample_icon_init.border) % UINT_MOD,
          (sample_icon_init.height + 2 * sample_icon_init.border
            + (if sample_icon_init.show_text then 20 else 0)) % UINT_MOD)] :=
  ⟨by decide,
   (icon_create_window_size sample_server 3 sample_icon_init 10 20 false (by decide)).1⟩

/-- C6: for every ancestor chain from the original window up to the root on which
all `XGetWindowAttributes` and `XQueryTree` calls succeed, the walk of `icon_create`
ends with the component-wise sum of the offsets of exactly the viewable windows of
the chain (the sums being representable in an `int`); offsets of the other windows
are left out, and non-negative sums become `x_pos`, `y_pos` and the position of the
created window.  When every window of the chain is viewable this is the sum of all
offsets. -/
theorem icon_create_position_sum (srv : XServer) (fuel : Nat) (icon : icon_td)
    (chain : List XWindowAttributes)
    (hchain : walk_chain srv icon.window_orig chain 0 = true)
    (hfuel : chain.length ≤ fuel)
    (hsx : int_range (viewable_sum_x chain)) (hsy : int_range (viewable_sum_y chain)) :
    hierarchy_walk srv fuel icon.window_orig 0 0 =
      some (WalkResult.finished (viewable_sum_x chain) (viewable_sum_y chain) false)
    ∧ (∃ r : icon_td × List XCall, icon_create srv fuel icon = some r
        ∧ (0 ≤ viewable_sum_x chain → r.1.x_pos = viewable_sum_x chain)
        ∧ (0 ≤ viewable_sum_y chain → r.1.y_pos = viewable_sum_y chain)
        ∧ (0 ≤ viewable_sum_x chain → 0 ≤ viewable_sum_y chain →
            created_windows r.2 =
              [(viewable_sum_x chain, viewable_sum_y chain,
                (icon.width + 2 * icon.border) % UINT_MOD,
                (icon.height + 2 * icon.border + (if icon.show_text then 20 else 0))
                  % UINT_MOD)]))
    ∧ ((∀ a ∈ chain, a.map_state = IsViewable) →
        viewable_sum_x chain = (chain.map (fun a => a.x)).sum
        ∧ viewable_sum_y chain = (chain.map (fun a => a.y)).sum) := by
  have hwalk := hierarchy_walk_to_root srv fuel icon.window_orig chain hchain hfuel
  rw [wrapInt_of_range _ hsx, wrapInt_of_range _ hsy] at hwalk
  refine ⟨hwalk, ⟨_, icon_create_of_walk srv fuel icon _ _ false hwalk, ?_, ?_, ?_⟩, ?_⟩
  · intro h
    simp [icon_place, not_lt.mpr h]
  · intro h
    simp [icon_place, not_lt.mpr h]
  · intro hx hy
    rw [created_windows_stderr_append, created_windows_icon_place, if_neg (not_lt.mpr hx),
      if_neg (not_lt.mpr hy)]
  · intro hall
    have hfilter : chain.filter (fun a => decide (a.map_state = IsViewable)) = chain := by
      rw [List.filter_eq_self]
      intro a ha
      simpa using hall a ha
    simp [viewable_sum_x, viewable_sum_y, hfilter]

/-- Witness of C6: on the sample server the chain of window 7 is viewable at
(10, 20), unmapped at (5, 5), viewable at (0, 0); the icon is placed at (10, 20). -/
theorem icon_create_position_sum_witness :
    (walk_chain sample_server sample_icon_init.window_orig
        [{ x := 10, y := 20, map_state := 2 }, { x := 5, y := 5, map_state := 0 },
         { x := 0, y := 0, map_state := 2 }] 0 = true
      ∧ viewable_sum_x [{ x := 10, y := 20, map_state := 2 }, { x := 5, y := 5, map_state := 0 },
         { x := 0, y := 0, map_state := 2 }] = 10
      ∧ viewable_sum_y [{ x := 10, y := 20, map_state := 2 }, { x := 5, y := 5, map_state := 0 },
         { x := 0, y := 0, map_state := 2 }] = 20)
    ∧ hierarchy_walk sample_server 3 sample_icon_init.window_orig 0 0 =
      some (WalkResult.finished
        (viewable_sum_x [{ x := 10, y := 20, map_state := 2 },
          { x := 5, y := 5, map_state := 0 }, { x := 0, y := 0, map_state := 2 }])
        (viewable_sum_y [{ x := 10, y := 20, map_state := 2 },
          { x := 5, y := 5, map_state := 0 }, { x := 0, y := 0, map_state := 2 }]) false) :=
  ⟨by decide,
   (icon_create_position_sum sample_server 3 sample_icon_init
      [{ x := 10, y := 20, map_state := 2 }, { x := 5, y := 5, map_state := 0 },
       { x := 0, y := 0, map_state := 2 }] (by decide) (by decide) (by decide) (by decide)).1⟩

/-- C7, as the code has it: when the walk of `icon_create` ends with the sums
`(ax, ay)`, each axis is settled on its own: `x_pos` is 240 when `ax < 0` and `ax`
otherwise, `y_pos` is 240 when `ay < 0` and `ay` otherwise.  The position is
(240, 240) when both sums are negative. -/
theorem icon_create_negative_axis (srv : XServer) (fuel : Nat) (icon : icon_td) (ax ay : Int)
    (tf : Bool)
    (hwalk : hierarchy_walk srv fuel icon.window_orig 0 0 =
      some (WalkResult.finished ax ay tf)) :
    ∃ r : icon_td × List XCall, icon_create srv fuel icon = some r
      ∧ r.1.x_pos = (if ax < 0 then 240 else ax)
      ∧ r.1.y_pos = (if ay < 0 then 240 else ay)
      ∧ (ax < 0 → 0 ≤ ay → (r.1.x_pos, r.1.y_pos) = (240, ay))
      ∧ (0 ≤ ax → ay < 0 → (r.1.x_pos, r.1.y_pos) = (ax, 240))
      ∧ (ax < 0 → ay < 0 → (r.1.x_pos, r.1.y_pos) = (240, 240)) := by
  refine ⟨_, icon_create_of_walk srv fuel icon ax ay tf hwalk, ?_, ?_, ?_, ?_, ?_⟩
  · simp [icon_place]
  · simp [icon_place]
  · intro hx hy; simp [icon_place, hx, not_lt.mpr hy]
  · intro hx hy; simp [icon_place, hy, not_lt.mpr hx]
  · intro hx hy; simp [icon_place, hx, hy]

/-- Witness of the amended C7: window 7 viewable at (-5, 100) under the root. -/
theorem icon_create_negative_axis_witness :
    hierarchy_walk negative_x_server 2 sample_icon_init.window_orig 0 0 =
      some (WalkResult.finished (-5) 100 false)
    ∧ ∃ r : icon_td × List XCall, icon_create negative_x_server 2 sample_icon_init = some r
      ∧ r.1.x_pos = (if (-5 : Int) < 0 then 240 else -5)
      ∧ r.1.y_pos = (if (100 : Int) < 0 then 240 else 100) :=
  ⟨by decide,
   (icon_create_negative_axis negative_x_server 2 sample_icon_init (-5) 100 false
      (by decide)).imp (fun _ h => ⟨h.1, h.2.1, h.2.2.1⟩)⟩

/-- Counterexample to C7 as stated: with accumulated sums (-5, 100), negative on the
x axis, `icon_create` places the icon at (240, 100), not at (240, 240). -/
theorem icon_create_negative_axis_counterexample :
    hierarchy_walk negative_x_server 2 sample_icon_init.window_orig 0 0 =
      some (WalkResult.finished (-5) 100 false)
    ∧ (icon_create negative_x_server 2 sample_icon_init).map (fun r => r.1.x_pos) = some 240
    ∧ (icon_create negative_x_server 2 sample_icon_init).map (fun r => r.1.y_pos) = some 100
    ∧ (icon_create negative_x_server 2 sample_icon_init).map (fun r => created_windows r.2)
      = some [(240, 100, 34, 54)]
    ∧ ((240 : Int), (100 : Int)) ≠ (240, 240) := by
  decide

/-- C8, as the code has it: when `XQueryTree` fails at a window reached by the walk
of `icon_create`, the loop is left, "Cannot obtain window hierarchy" is printed and
the icon window is still created, at the sum accumulated so far (the offsets of the
viewable windows visited, the failing window included, the sums being representable
in an `int`); an axis takes the value 240 only when its accumulated sum is
negative. -/
theorem icon_create_tree_failure (srv : XServer) (fuel : Nat) (icon : icon_td)
    (chain : List XWindowAttributes) (w : Window) (a : XWindowAttributes)
    (hchain : walk_chain srv icon.window_orig chain w = true) (hw : w ≠ 0)
    (hattr : srv.XGetWindowAttributes w = some a) (htree : srv.XQueryTree w = none)
    (hfuel : chain.length < fuel)
    (hsx : int_range (viewable_sum_x (chain ++ [a])))
    (hsy : int_range (viewable_sum_y (chain ++ [a]))) :
    hierarchy_walk srv fuel icon.window_orig 0 0 =
      some (WalkResult.finished (viewable_sum_x (chain ++ [a]))
        (viewable_sum_y (chain ++ [a])) true)
    ∧ ∃ r : icon_td × List XCall, icon_create srv fuel icon = some r
      ∧ r.2.head? = some (XCall.fprintf_stderr "Cannot obtain window hierarchy\n")
      ∧ r.1.x_pos = (if viewable_sum_x (chain ++ [a]) < 0 then 240
          else viewable_sum_x (chain ++ [a]))
      ∧ r.1.y_pos = (if viewable_sum_y (chain ++ [a]) < 0 then 240
          else viewable_sum_y (chain ++ [a]))
      ∧ created_windows r.2 =
        [(r.1.x_pos, r.1.y_pos, (icon.width + 2 * icon.border) % UINT_MOD,
          (icon.height + 2 * icon.border + (if icon.show_text then 20 else 0)) % UINT_MOD)]
      ∧ XCall.XMapWindow r.1.window ∈ r.2 := by
  have hwalk := hierarchy_walk_tree_failure srv fuel icon.window_orig w chain a hchain hw
    hattr htree hfuel
  rw [wrapInt_of_range _ hsx, wrapInt_of_range _ hsy] at hwalk
  refine ⟨hwalk, _, icon_create_of_walk srv fuel icon _ _ true hwalk, ?_, ?_, ?_, ?_, ?_⟩
  · simp
  · simp [icon_place]
  · simp [icon_place]
  · rw [created_windows_stderr_append, created_windows_icon_place]
    simp [icon_place]
  · simp [icon_place]

/-- Witness of the amended C8: `XQueryTree` fails at window 3, the parent of
window 7. -/
theorem icon_create_tree_failure_witness :
    (walk_chain tree_failure_server sample_icon_init.window_orig
        [{ x := 10, y := 20, map_state := 2 }] 3 = true
      ∧ tree_failure_server.XGetWindowAttributes 3 = some { x := 30, y := 40, map_state := 2 }
      ∧ tree_failure_server.XQueryTree 3 = none)
    ∧ hierarchy_walk tree_failure_server 2 sample_icon_init.window_orig 0 0 =
      some (WalkResult.finished
        (viewable_sum_x ([{ x := 10, y := 20, map_state := 2 }]
          ++ [{ x := 30, y := 40, map_state := 2 }]))
        (viewable_sum_y ([{ x := 10, y := 20, map_state := 2 }]
          ++ [{ x := 30, y := 40, map_state := 2 }])) true) :=
  ⟨by decide,
   (icon_create_tree_failure tree_failure_server 2 sample_icon_init
      [{ x := 10, y := 20, map_state := 2 }] 3 { x := 30, y := 40, map_state := 2 }
      (by decide) (by decide) (by decide) (by decide) (by decide) (by decide) (by decide)).1⟩

/-- Counterexample to C8 as stated: `XQueryTree` fails at window 3 after the
offsets (10, 20) and (30, 40) were accumulated, and `icon_create` creates the icon
window at (40, 60), not at (240, 240). -/
theorem icon_create_tree_failure_counterexample :
    tree_failure_server.XQueryTree 3 = none
    ∧ walk_chain tree_failure_server sample_icon_init.window_orig
        [{ x := 10, y := 20, map_state := 2 }] 3 = true
    ∧ (icon_create tree_failure_server 2 sample_icon_init).map (fun r => r.1.x_pos) = some 40
    ∧ (icon_create tree_failure_server 2 sample_icon_init).map (fun r => r.1.y_pos) = some 60
    ∧ (icon_create tree_failure_server 2 sample_icon_init).map (fun r => created_windows r.2)
      = some [(40, 60, 34, 54)]
    ∧ ((40 : Int), (60 : Int)) ≠ (240, 240) := by
  decide

/-- C9: when `XGetWindowAttributes` fails at a window reached by the walk of
`icon_create`, the function returns having printed "Cannot get window properties"
and nothing else: no window is created, mapped or lowered, the original window is
not iconified, and every field of the icon record is as before; for a record built
by `icon_init` the position is still (240, 240). -/
theorem icon_create_attributes_failure (srv : XServer) (fuel : Nat) (icon : icon_td)
    (chain : List XWindowAttributes) (w : Window)
    (hchain : walk_chain srv icon.window_orig chain w = true) (hw : w ≠ 0)
    (hattr : srv.XGetWindowAttributes w = none) (hfuel : chain.length < fuel) :
    icon_create srv fuel icon =
      some (icon, [XCall.fprintf_stderr "Cannot get window properties\n"])
    ∧ (∀ (malloc_ok : Bool) (pixmap : Window) (prog_name : Option String) (path : String)
        (border width height text_bg text_fg frame_c : Nat) (show_text : Bool) (icon0 : icon_td),
        icon_init srv malloc_ok icon.window_orig pixmap prog_name path border width height
          text_bg text_fg frame_c show_text = some icon0 →
        ∃ r : icon_td × List XCall, icon_create srv fuel icon0 = some r
          ∧ r.1 = icon0 ∧ r.1.x_pos = 240 ∧ r.1.y_pos = 240 ∧ r.1.window = none
          ∧ r.2 = [XCall.fprintf_stderr "Cannot get window properties\n"]) := by
  have hgen : ∀ i : icon_td, i.window_orig = icon.window_orig →
      icon_create srv fuel i =
        some (i, [XCall.fprintf_stderr "Cannot get window properties\n"]) := by
    intro i hi
    have hwalk := hierarchy_walk_attributes_failure srv fuel icon.window_orig w chain hchain
      hw hattr hfuel
    simp [icon_create, hi, hwalk]
  refine ⟨hgen icon rfl, ?_⟩
  intro malloc_ok pixmap prog_name path border width height text_bg text_fg frame_c show_text
    icon0 hinit
  have h0 : icon0.window_orig = icon.window_orig ∧ icon0.x_pos = 240 ∧ icon0.y_pos = 240
      ∧ icon0.window = none := by
    unfold icon_init at hinit
    cases malloc_ok
    · simp at hinit
    · simp only [Bool.not_true, Bool.false_eq_true, if_false, Option.some.injEq] at hinit
      subst hinit
      exact ⟨rfl, rfl, rfl, rfl⟩
  exact ⟨_, hgen icon0 h0.1, rfl, h0.2.1, h0.2.2.1, h0.2.2.2, rfl⟩

/-- Witness of C9: `XGetWindowAttributes` fails at window 3, the parent of window 7. -/
theorem icon_create_attributes_failure_witness :
    (walk_chain attributes_failure_server sample_icon_init.window_orig
        [{ x := 10, y := 20, map_state := 2 }] 3 = true
      ∧ (3 : Window) ≠ 0
      ∧ attributes_failure_server.XGetWindowAttributes 3 = none
      ∧ [({ x := 10, y := 20, map_state := 2 } : XWindowAttributes)].length < 2)
    ∧ icon_create attributes_failure_server 2 sample_icon_init =
      some (sample_icon_init, [XCall.fprintf_stderr "Cannot get window properties\n"]) :=
  ⟨by decide,
   (icon_create_attributes_failure attributes_failure_server 2 sample_icon_init
      [{ x := 10, y := 20, map_state := 2 }] 3 (by decide) (by decide) (by decide)
      (by decide)).1⟩

/-- C10: the stored position is never negative.  `icon_init` stores (240, 240);
`icon_create` keeps `x_pos ≥ 0` and `y_pos ≥ 0` whatever the window offsets and
whatever the outcome of the queries: it returns a record with a non-negative
position whenever its walk ends, and its walk ends on every finite chain, be it at
the root, at a failed `XGetWindowAttributes` or at a failed `XQueryTree`. -/
theorem icon_position_nonneg (srv : XServer) (icon : icon_td)
    (hx : 0 ≤ icon.x_pos) (hy : 0 ≤ icon.y_pos) :
    (∀ (malloc_ok : Bool) (window_orig pixmap : Window) (prog_name : Option String)
        (path : String) (border width height text_bg text_fg frame_c : Nat) (show_text : Bool)
        (icon0 : icon_td),
        icon_init srv malloc_ok window_orig pixmap prog_name path border width height
          text_bg text_fg frame_c show_text = some icon0 →
        0 ≤ icon0.x_pos ∧ 0 ≤ icon0.y_pos)
    ∧ (∀ (fuel : Nat) (r : icon_td × List XCall), icon_create srv fuel icon = some r →
        0 ≤ r.1.x_pos ∧ 0 ≤ r.1.y_pos)
    ∧ (∀ (chain : List XWindowAttributes) (w : Window) (fuel : Nat),
        walk_chain srv icon.window_orig chain w = true →
        (w = 0 ∨ srv.XGetWindowAttributes w = none ∨ srv.XQueryTree w = none) →
        chain.length < fuel →
        ∃ r : icon_td × List XCall, icon_create srv fuel icon = some r
          ∧ 0 ≤ r.1.x_pos ∧ 0 ≤ r.1.y_pos) := by
  have hplace : ∀ ax ay : Int, 0 ≤ (icon_place srv icon ax ay).1.x_pos
      ∧ 0 ≤ (icon_place srv icon ax ay).1.y_pos := by
    intro ax ay
    simp only [icon_place]
    constructor <;> split <;> omega
  have hret : ∀ (fuel : Nat) (r : icon_td × List XCall), icon_create srv fuel icon = some r →
      0 ≤ r.1.x_pos ∧ 0 ≤ r.1.y_pos := by
    intro fuel r hr
    unfold icon_create at hr
    cases hwalk : hierarchy_walk srv fuel icon.window_orig 0 0 with
    | none => rw [hwalk] at hr; simp at hr
    | some res =>
      rw [hwalk] at hr
      cases res with
      | attributes_failed =>
        simp only [Option.some.injEq] at hr
        subst hr
        exact ⟨hx, hy⟩
      | finished ax ay tf =>
        simp only [Option.some.injEq] at hr
        subst hr
        exact hplace ax ay
  refine ⟨?_, hret, ?_⟩
  · intro malloc_ok window_orig pixmap prog_name path border width height text_bg text_fg
      frame_c show_text icon0 hinit
    unfold icon_init at hinit
    cases malloc_ok
    · simp at hinit
    · simp only [Bool.not_true, Bool.false_eq_true, if_false, Option.some.injEq] at hinit
      subst hinit
      simp
  · intro chain w fuel hchain hend hfuel
    have hsome : ∃ r : icon_td × List XCall, icon_create srv fuel icon = some r := by
      by_cases hw : w = 0
      · subst hw
        exact ⟨_, icon_create_of_walk srv fuel icon _ _ false
          (hierarchy_walk_to_root srv fuel icon.window_orig chain hchain (le_of_lt hfuel))⟩
      · cases hattr : srv.XGetWindowAttributes w with
        | none =>
          refine ⟨(icon, [XCall.fprintf_stderr "Cannot get window properties\n"]), ?_⟩
          simp [icon_create, hierarchy_walk_attributes_failure srv fuel icon.window_orig w chain
            hchain hw hattr hfuel]
        | some a =>
          have htree : srv.XQueryTree w = none := by
            rcases hend with h | h | h
            · exact absurd h hw
            · rw [hattr] at h; simp at h
            · exact h
          exact ⟨_, icon_create_of_walk srv fuel icon _ _ true
            (hierarchy_walk_tree_failure srv fuel icon.window_orig w chain a hchain hw hattr
              htree hfuel)⟩
    obtain ⟨r, hr⟩ := hsome
    exact ⟨r, hr, hret fuel r hr⟩

/-- Witness of C10: the sample icon on the server whose window 7 lies at (-5, 100),
two windows below the end of the chain. -/
theorem icon_position_nonneg_witness :
    ((0 : Int) ≤ sample_icon_init.x_pos ∧ (0 : Int) ≤ sample_icon_init.y_pos
      ∧ walk_chain negative_x_server sample_icon_init.window_orig
          [{ x := -5, y := 100, map_state := 2 }, { x := 0, y := 0, map_state := 2 }] 0 = true)
    ∧ ∃ r : icon_td × List XCall, icon_create negative_x_server 3 sample_icon_init = some r
        ∧ 0 ≤ r.1.x_pos ∧ 0 ≤ r.1.y_pos :=
  ⟨by decide,
   (icon_position_nonneg negative_x_server sample_icon_init (by decide) (by decide)).2.2
      [{ x := -5, y := 100, map_state := 2 }, { x := 0, y := 0, map_state := 2 }] 0 3
      (by decide) (Or.inl rfl) (by decide)⟩


/-! ## Lemmas on double precision arithmetic -/

theorem log2_floor_aux_eq (fuel : Nat) : ∀ n : Nat, n ≤ fuel →
    log2_floor_aux fuel n = Nat.log2 n := by
  induction fuel with
  | zero =>
    intro n hn
    have h0 : n = 0 := by omega
    subst h0
    rw [Nat.log2]
    simp [log2_floor_aux]
  | succ fuel ih =>
    intro n hn
    rw [Nat.log2, log2_floor_aux]
    by_cases h : n < 2
    · simp [h, not_le.mpr h]
    · have h2 : n ≥ 2 := by omega
      simp only [h, if_false, h2, if_true]
      rw [ih (n / 2) (by omega)]

theorem log2_floor_eq (n : Nat) : log2_floor n = Nat.log2 n :=
  log2_floor_aux_eq n n (le_refl n)

theorem log2_floor_le (n : Nat) (h : n ≠ 0) : 2 ^ log2_floor n ≤ n := by
  rw [log2_floor_eq]; exact Nat.log2_self_le h

theorem lt_log2_floor (n : Nat) : n < 2 ^ (log2_floor n + 1) := by
  rw [log2_floor_eq]; exact Nat.lt_log2_self

/-- The rounded quotient is within half a unit of the exact one. -/
theorem round_half_even_bounds (n d : Nat) (hd : 0 < d) :
    2 * (round_half_even n d * d) ≤ 2 * n + d
    ∧ 2 * n ≤ 2 * (round_half_even n d * d) + d := by
  have hdm := Nat.div_add_mod n d
  have hlt := Nat.mod_lt n hd
  have hcomm : d * (n / d) = n / d * d := Nat.mul_comm _ _
  unfold round_half_even
  split
  · rename_i hc
    have hc2 : d ≤ 2 * (n % d) := by
      rcases hc with hc | hc
      · omega
      · omega
    rw [Nat.add_mul, Nat.one_mul]
    omega
  · rename_i hc
    have hc2 : 2 * (n % d) ≤ d := by
      by_contra hcon
      exact hc (Or.inl (by omega))
    omega

/-- When `d` divides `n` the rounded quotient is the exact one. -/
theorem round_half_even_of_dvd (n d : Nat) (hd : 0 < d) (h : d ∣ n) :
    round_half_even n d * d = n := by
  have hmod : n % d = 0 := Nat.mod_eq_zero_of_dvd h
  unfold round_half_even
  rw [hmod]
  have : ¬ (2 * 0 > d ∨ (2 * 0 = d ∧ n / d % 2 = 1)) := by omega
  rw [if_neg this]
  exact Nat.div_mul_cancel h

/-- Rounding to 53 bits moves a number by at most `2^-53` of itself. -/
theorem round53_bounds (n : Nat) :
    2 ^ 53 * round53 n ≤ 2 ^ 53 * n + n ∧ 2 ^ 53 * n ≤ 2 ^ 53 * round53 n + n := by
  unfold round53
  split
  · omega
  · rename_i hn
    have hn53 : 2 ^ 53 ≤ n := by omega
    have hne : n ≠ 0 := by
      intro h0; rw [h0] at hn53; simp at hn53
    have hlog : 53 ≤ log2_floor n := by
      by_contra hcon
      have h1 : log2_floor n + 1 ≤ 53 := by omega
      have h2 := lt_log2_floor n
      have h3 : 2 ^ (log2_floor n + 1) ≤ 2 ^ 53 := Nat.pow_le_pow_right (by norm_num) h1
      omega
    have hpow : 2 ^ (log2_floor n - 52) * 2 ^ 52 = 2 ^ log2_floor n := by
      rw [← Nat.pow_add]; congr 1; omega
    have hle := log2_floor_le n hne
    have hd : 0 < 2 ^ (log2_floor n - 52) := Nat.pow_pos (by norm_num)
    obtain ⟨h1, h2⟩ := round_half_even_bounds n (2 ^ (log2_floor n - 52)) hd
    generalize round_half_even n (2 ^ (log2_floor n - 52)) * 2 ^ (log2_floor n - 52) = r at h1 h2 ⊢
    generalize 2 ^ (log2_floor n - 52) = d at hpow hd h1 h2
    generalize 2 ^ log2_floor n = p at hpow hle
    norm_num at hpow ⊢
    omega

/-- A number with at most 53 significant bits is not changed by the rounding. -/
theorem round53_exact (x s : Nat) (hx : x < 2 ^ 53) : round53 (x * 2 ^ s) = x * 2 ^ s := by
  unfold round53
  split
  · rfl
  · rename_i hn
    have hn53 : 2 ^ 53 ≤ x * 2 ^ s := by omega
    have hne : x * 2 ^ s ≠ 0 := by
      intro h0; rw [h0] at hn53; simp at hn53
    have hle := log2_floor_le (x * 2 ^ s) hne
    have hks : log2_floor (x * 2 ^ s) - 52 ≤ s := by
      by_contra hcon
      have h1 : s + 53 ≤ log2_floor (x * 2 ^ s) := by omega
      have h2 : 2 ^ (s + 53) ≤ 2 ^ log2_floor (x * 2 ^ s) :=
        Nat.pow_le_pow_right (by norm_num) h1
      have h3 : x * 2 ^ s < 2 ^ 53 * 2 ^ s :=
        Nat.mul_lt_mul_of_pos_right hx (Nat.pow_pos (by norm_num))
      rw [Nat.pow_add, Nat.mul_comm (2 ^ s) (2 ^ 53)] at h2
      omega
    apply round_half_even_of_dvd _ _ (Nat.pow_pos (by norm_num))
    exact Dvd.dvd.mul_left (Nat.pow_dvd_pow 2 hks) x

theorem log2_floor_lt (n k : Nat) (hn : n ≠ 0) (h : n < 2 ^ k) : log2_floor n < k := by
  rw [log2_floor_eq]; exact (Nat.log2_lt hn).mpr h

/-- The significand of a quotient has at least 53 bits. -/
theorem div_scale_normal (a b : Nat) (ha : 0 < a) (ha53 : a < 2 ^ 53) :
    2 ^ 52 * b ≤ a * 2 ^ div_scale a b := by
  unfold div_scale
  split
  · have hla := log2_floor_le a (by omega)
    have hlb := lt_log2_floor b
    have hlt := log2_floor_lt a 53 (by omega) ha53
    have h1 : 2 ^ log2_floor a * 2 ^ (52 + log2_floor b - log2_floor a + 1)
        = 2 ^ 52 * 2 ^ (log2_floor b + 1) := by
      rw [← Nat.pow_add, ← Nat.pow_add]; congr 1; omega
    have h2 : 2 ^ log2_floor a * 2 ^ (52 + log2_floor b - log2_floor a + 1)
        ≤ a * 2 ^ (52 + log2_floor b - log2_floor a + 1) := Nat.mul_le_mul_right _ hla
    have h3 : 2 ^ 52 * b ≤ 2 ^ 52 * 2 ^ (log2_floor b + 1) :=
      Nat.mul_le_mul_left _ (le_of_lt hlb)
    omega
  · omega

/-- The significand of a quotient has at most 53 bits. -/
theorem div_scale_bound (a b : Nat) (ha : 0 < a) (hb : 0 < b) (ha53 : a < 2 ^ 53) :
    a * 2 ^ div_scale a b < 2 ^ 53 * b := by
  unfold div_scale
  split
  · rename_i hlt
    rw [Nat.pow_succ, ← Nat.mul_assoc]
    omega
  · have hla := lt_log2_floor a
    have hlb := log2_floor_le b (by omega)
    have hlt := log2_floor_lt a 53 (by omega) ha53
    have h1 : 2 ^ (log2_floor a + 1) * 2 ^ (52 + log2_floor b - log2_floor a)
        = 2 ^ 53 * 2 ^ log2_floor b := by
      rw [← Nat.pow_add, ← Nat.pow_add]; congr 1; omega
    have h2 : a * 2 ^ (52 + log2_floor b - log2_floor a)
        < 2 ^ (log2_floor a + 1) * 2 ^ (52 + log2_floor b - log2_floor a) :=
      Nat.mul_lt_mul_of_pos_right hla (Nat.pow_pos (by norm_num))
    have h3 : 2 ^ 53 * 2 ^ log2_floor b ≤ 2 ^ 53 * b := Nat.mul_le_mul_left _ hlb
    omega

theorem div_scale_pos (a b : Nat) (ha : 0 < a) (ha53 : a < 2 ^ 52) :
    0 < div_scale a b := by
  have hlt := log2_floor_lt a 52 (by omega) ha53
  unfold div_scale
  split <;> omega

/-- The value of `src_coord` for non-zero sizes. -/
theorem src_coord_eq (a b x : Nat) (ha : 0 < a) (hb : 0 < b) :
    src_coord a b x =
      if round53 (x * round_half_even (a * 2 ^ div_scale a b) b) / 2 ^ div_scale a b
          ≤ 2147483647
      then ((round53 (x * round_half_even (a * 2 ^ div_scale a b) b) / 2 ^ div_scale a b
          : Nat) : Int)
      else INT_MIN := by
  have ha0 : a ≠ 0 := by omega
  have hb0 : b ≠ 0 := by omega
  simp [src_coord, double_div, ha0, hb0, double_mul, double_to_int]

/-- Error of the double precision product `x * (a / b)`, scaled by `b * 2 ^ s`:
it differs from the exact `x * a / b` by less than `1 / b`. -/
theorem product_error (a b x m S R : Nat) (hS : 0 < S)
    (h1a : 2 * (m * b) ≤ 2 * (a * S) + b) (h1b : 2 * (a * S) ≤ 2 * (m * b) + b)
    (h2a : 2 ^ 53 * R ≤ 2 ^ 53 * (x * m) + x * m)
    (h2b : 2 ^ 53 * (x * m) ≤ 2 ^ 53 * R + x * m)
    (h3 : 2 ^ 52 * b ≤ a * S) (hT : x * a ≤ 2 ^ 50) :
    R * b < x * a * S + S ∧ x * a * S < R * b + S := by
  have e1 : 2 ^ 53 * (R * b) ≤ 2 ^ 53 * (x * m * b) + x * m * b := by
    have := Nat.mul_le_mul_right b h2a
    calc 2 ^ 53 * (R * b) = 2 ^ 53 * R * b := by ring
      _ ≤ (2 ^ 53 * (x * m) + x * m) * b := this
      _ = 2 ^ 53 * (x * m * b) + x * m * b := by ring
  have e1b : 2 ^ 53 * (x * m * b) ≤ 2 ^ 53 * (R * b) + x * m * b := by
    have := Nat.mul_le_mul_right b h2b
    calc 2 ^ 53 * (x * m * b) = 2 ^ 53 * (x * m) * b := by ring
      _ ≤ (2 ^ 53 * R + x * m) * b := this
      _ = 2 ^ 53 * (R * b) + x * m * b := by ring
  have e2 : 2 * (x * m * b) ≤ 2 * (x * a * S) + x * b := by
    have := Nat.mul_le_mul_left x h1a
    calc 2 * (x * m * b) = x * (2 * (m * b)) := by ring
      _ ≤ x * (2 * (a * S) + b) := this
      _ = 2 * (x * a * S) + x * b := by ring
  have e2b : 2 * (x * a * S) ≤ 2 * (x * m * b) + x * b := by
    have := Nat.mul_le_mul_left x h1b
    calc 2 * (x * a * S) = x * (2 * (a * S)) := by ring
      _ ≤ x * (2 * (m * b) + b) := this
      _ = 2 * (x * m * b) + x * b := by ring
  have e3 : 2 ^ 52 * (x * b) ≤ x * a * S := by
    have := Nat.mul_le_mul_left x h3
    calc 2 ^ 52 * (x * b) = x * (2 ^ 52 * b) := by ring
      _ ≤ x * (a * S) := this
      _ = x * a * S := by ring
  have e4 : x * a * S ≤ 2 ^ 50 * S := Nat.mul_le_mul_right S hT
  generalize R * b = RB at e1 e1b ⊢
  generalize x * m * b = NB at e1 e1b e2 e2b
  generalize x * a * S = TS at e2 e2b e3 e4 ⊢
  generalize x * b = XB at e2 e2b e3
  norm_num at e1 e1b e3 e4
  omega

/-- A value `R / S` within `1 / b` of the fraction `T / b` has the integer part of
`T / b`, or one less when `b` divides `T`. -/
theorem floor_of_error (b S R T : Nat) (hb : 0 < b) (hS : 0 < S)
    (hU : R * b < T * S + S) (hL : T * S < R * b + S) :
    (T % b ≠ 0 → R / S = T / b) ∧ (R / S = T / b ∨ R / S + 1 = T / b) := by
  have hdm : b * (T / b) + T % b = T := Nat.div_add_mod T b
  have hlt : T % b < b := Nat.mod_lt T hb
  have hTS : T * S = T / b * S * b + T % b * S := by
    calc T * S = (b * (T / b) + T % b) * S := by rw [hdm]
      _ = T / b * S * b + T % b * S := by ring
  have hrS : T % b * S + S ≤ S * b := by
    calc T % b * S + S = (T % b + 1) * S := by ring
      _ ≤ b * S := Nat.mul_le_mul_right S hlt
      _ = S * b := Nat.mul_comm _ _
  have hupper : R / S < T / b + 1 := by
    rw [Nat.div_lt_iff_lt_mul hS]
    by_contra hcon
    have h1 : (T / b + 1) * S * b ≤ R * b := Nat.mul_le_mul_right b (not_lt.mp hcon)
    have h2 : (T / b + 1) * S * b = T / b * S * b + S * b := by ring
    omega
  have hlower : T / b ≤ R / S + 1 := by
    by_contra hcon
    have h0 : R / S + 2 ≤ T / b := by omega
    have h1 : R < (R / S + 1) * S := by
      have := Nat.lt_succ_self (R / S)
      exact (Nat.div_lt_iff_lt_mul hS).mp this
    have h2 : (R / S + 2) * S * b ≤ T / b * S * b :=
      Nat.mul_le_mul_right b (Nat.mul_le_mul_right S h0)
    have h3 : R * b ≤ (R / S + 1) * S * b := Nat.mul_le_mul_right b (le_of_lt h1)
    have h4 : (R / S + 2) * S * b = (R / S + 1) * S * b + S * b := by ring
    have h5 : S ≤ S * b := Nat.le_mul_of_pos_right S hb
    omega
  refine ⟨?_, by omega⟩
  intro hrem
  have hge : T / b ≤ R / S := by
    rw [Nat.le_div_iff_mul_le hS]
    by_contra hcon
    have h1 : R * b ≤ T / b * S * b := Nat.mul_le_mul_right b (le_of_lt (not_le.mp hcon))
    have h2 : S ≤ T % b * S := Nat.le_mul_of_pos_left S (by omega)
    omega
  omega

/-- The source coordinate against the exact quotient: equal to the integer part
of `x * a / b`, except that it may be one less where `b` divides `x * a`. -/
theorem src_coord_floor (a b x : Nat) (ha : 0 < a) (hb : 0 < b) (hx : x < b)
    (ha31 : a ≤ 2 ^ 31) (hab : a * b ≤ 2 ^ 50) :
    (x * a % b ≠ 0 → src_coord a b x = ((x * a / b : Nat) : Int))
    ∧ (src_coord a b x = ((x * a / b : Nat) : Int)
        ∨ src_coord a b x + 1 = ((x * a / b : Nat) : Int)) := by
  have hS : 0 < 2 ^ div_scale a b := Nat.pow_pos (by norm_num)
  have hT : x * a ≤ 2 ^ 50 := by
    calc x * a ≤ b * a := Nat.mul_le_mul_right a (le_of_lt hx)
      _ = a * b := Nat.mul_comm _ _
      _ ≤ 2 ^ 50 := hab
  have h3 := div_scale_normal a b ha (by norm_num at ha31 ⊢; omega)
  obtain ⟨h1a, h1b⟩ := round_half_even_bounds (a * 2 ^ div_scale a b) b hb
  obtain ⟨h2a, h2b⟩ := round53_bounds (x * round_half_even (a * 2 ^ div_scale a b) b)
  obtain ⟨hU, hL⟩ := product_error a b x _ _ _ hS h1a h1b h2a h2b h3 hT
  obtain ⟨hexact, hnear⟩ := floor_of_error b _ _ _ hb hS hU hL
  have hf : x * a / b < a := by
    rw [Nat.div_lt_iff_lt_mul hb, Nat.mul_comm a b]
    exact Nat.mul_lt_mul_of_pos_right hx ha
  rw [src_coord_eq a b x ha hb]
  have hfit : round53 (x * round_half_even (a * 2 ^ div_scale a b) b) / 2 ^ div_scale a b
      ≤ 2147483647 := by
    norm_num at ha31
    omega
  rw [if_pos hfit]
  constructor
  · intro hrem
    rw [hexact hrem]
  · rcases hnear with h | h
    · left; rw [h]
    · right; rw [← h]; push_cast; ring

/-- Equal sizes: the ratio is exactly 1 and the source coordinate is `x`. -/
theorem src_coord_same_size (a x : Nat) (ha : 0 < a) (ha31 : a ≤ 2 ^ 31) (hx : x < a) :
    src_coord a a x = (x : Int) := by
  have hS : 0 < 2 ^ div_scale a a := Nat.pow_pos (by norm_num)
  have hm : round_half_even (a * 2 ^ div_scale a a) a = 2 ^ div_scale a a := by
    have h := round_half_even_of_dvd (a * 2 ^ div_scale a a) a ha (Dvd.intro _ rfl)
    exact Nat.eq_of_mul_eq_mul_right ha (h.trans (Nat.mul_comm a (2 ^ div_scale a a)))
  have hx53 : x < 2 ^ 53 := by norm_num at ha31 ⊢; omega
  rw [src_coord_eq a a x ha ha, hm, round53_exact x _ hx53, Nat.mul_div_cancel x hS]
  have hfit : x ≤ 2147483647 := by norm_num at ha31; omega
  rw [if_pos hfit]

/-- Doubling the size: the ratio is exactly 1/2 and the source coordinate is `x / 2`. -/
theorem src_coord_double_size (a x : Nat) (ha : 0 < a) (ha31 : a ≤ 2 ^ 31) (hx : x < 2 * a) :
    src_coord a (2 * a) x = ((x / 2 : Nat) : Int) := by
  have hpos := div_scale_pos a (2 * a) ha (by norm_num at ha31 ⊢; omega)
  obtain ⟨k, hk⟩ : ∃ k, div_scale a (2 * a) = k + 1 := ⟨div_scale a (2 * a) - 1, by omega⟩
  have h2a : 0 < 2 * a := by omega
  have hm : round_half_even (a * 2 ^ div_scale a (2 * a)) (2 * a) = 2 ^ k := by
    have hdvd : 2 * a ∣ a * 2 ^ div_scale a (2 * a) := by
      rw [hk, Nat.pow_succ]
      exact ⟨2 ^ k, by ring⟩
    have h := round_half_even_of_dvd (a * 2 ^ div_scale a (2 * a)) (2 * a) h2a hdvd
    have h2 : a * 2 ^ div_scale a (2 * a) = 2 ^ k * (2 * a) := by
      rw [hk, Nat.pow_succ]; ring
    rw [h2] at h
    have h3 := Nat.eq_of_mul_eq_mul_right h2a h
    rw [← h2] at h3
    exact h3
  have hx53 : x < 2 ^ 53 := by norm_num at ha31 ⊢; omega
  rw [src_coord_eq a (2 * a) x ha h2a, hm, round53_exact x _ hx53, hk, Nat.pow_succ,
    ← Nat.div_div_eq_div_mul, Nat.mul_div_cancel x (Nat.pow_pos (by norm_num))]
  have hfit : x / 2 ≤ 2147483647 := by norm_num at ha31; omega
  rw [if_pos hfit]

/-- The double precision product `x * (a / b)` stays below `a` for `x < b`. -/
theorem product_below_size (a b x m S R : Nat) (hS : 0 < S) (ha : 0 < a)
    (hx : x < b) (hb32 : b ≤ 2 ^ 32)
    (h1a : 2 * (m * b) ≤ 2 * (a * S) + b)
    (h2a : 2 ^ 53 * R ≤ 2 ^ 53 * (x * m) + x * m)
    (h3 : 2 ^ 52 * b ≤ a * S) :
    R < a * S := by
  have hb : 0 < b := by omega
  have hA : 0 < a * S := Nat.mul_pos ha hS
  by_contra hcon
  have e0 : a * S * b ≤ R * b := Nat.mul_le_mul_right b (not_lt.mp hcon)
  have e1 : 2 ^ 53 * (R * b) ≤ 2 ^ 53 * (x * m * b) + x * m * b := by
    have := Nat.mul_le_mul_right b h2a
    calc 2 ^ 53 * (R * b) = 2 ^ 53 * R * b := by ring
      _ ≤ (2 ^ 53 * (x * m) + x * m) * b := this
      _ = 2 ^ 53 * (x * m * b) + x * m * b := by ring
  have e2 : 2 * (x * m * b) + 2 * (a * S) + b ≤ 2 * (a * S * b) + b * b := by
    have h := Nat.mul_le_mul_left x h1a
    have h' : (x + 1) * (2 * (a * S) + b) ≤ b * (2 * (a * S) + b) :=
      Nat.mul_le_mul_right _ hx
    calc 2 * (x * m * b) + 2 * (a * S) + b
        = x * (2 * (m * b)) + (2 * (a * S) + b) := by ring
      _ ≤ x * (2 * (a * S) + b) + (2 * (a * S) + b) := Nat.add_le_add_right h _
      _ = (x + 1) * (2 * (a * S) + b) := by ring
      _ ≤ b * (2 * (a * S) + b) := h'
      _ = 2 * (a * S * b) + b * b := by ring
  have e3 : 2 ^ 52 * (b * b) ≤ a * S * b := by
    have := Nat.mul_le_mul_right b h3
    calc 2 ^ 52 * (b * b) = 2 ^ 52 * b * b := by ring
      _ ≤ a * S * b := this
  have e5 : a * S * b ≤ 2 ^ 32 * (a * S) := by
    have := Nat.mul_le_mul_left (a * S) hb32
    calc a * S * b ≤ a * S * 2 ^ 32 := this
      _ = 2 ^ 32 * (a * S) := Nat.mul_comm _ _
  generalize R * b = RB at e0 e1
  generalize x * m * b = NB at e1 e2
  generalize a * S * b = AB at e0 e2 e3 e5
  generalize b * b = BB at e2 e3
  generalize a * S = A at hA e2 e5
  norm_num at e1 e3 e5
  omega

/-- The source coordinate lies inside the declared source size. -/
theorem src_coord_range (a b x : Nat) (ha : 0 < a) (ha31 : a ≤ 2 ^ 31) (hb : 0 < b)
    (hb32 : b < 2 ^ 32) (hx : x < b) :
    0 ≤ src_coord a b x ∧ src_coord a b x < (a : Int) := by
  have hS : 0 < 2 ^ div_scale a b := Nat.pow_pos (by norm_num)
  have h3 := div_scale_normal a b ha (by norm_num at ha31 ⊢; omega)
  obtain ⟨h1a, _⟩ := round_half_even_bounds (a * 2 ^ div_scale a b) b hb
  obtain ⟨h2a, _⟩ := round53_bounds (x * round_half_even (a * 2 ^ div_scale a b) b)
  have hR := product_below_size a b x _ _ _ hS ha hx (le_of_lt hb32) h1a h2a h3
  have hlt : round53 (x * round_half_even (a * 2 ^ div_scale a b) b) / 2 ^ div_scale a b < a :=
    (Nat.div_lt_iff_lt_mul hS).mpr hR
  rw [src_coord_eq a b x ha hb]
  have hfit : round53 (x * round_half_even (a * 2 ^ div_scale a b) b) / 2 ^ div_scale a b
      ≤ 2147483647 := by
    norm_num at ha31
    omega
  rw [if_pos hfit]
  constructor
  · exact Int.ofNat_nonneg _
  · exact_mod_cast hlt

/-- A source of size 0 is sampled at coordinate 0. -/
theorem src_coord_zero_size (b x : Nat) (hb : 0 < b) : src_coord 0 b x = 0 := by
  have hb0 : b ≠ 0 := by omega
  simp [src_coord, double_div, hb0, double_mul, double_to_int, round53]

/-! ## Lemmas on the loops of `pixmap_scale` -/

theorem uint_to_int_small (x : Nat) (hx : x < 2 ^ 31) : uint_to_int x = (x : Int) := by
  apply wrapInt_of_range
  unfold int_range INT_MIN INT_MAX
  norm_num at hx
  omega

theorem pixmap_scale_copies (wo ho wn hn : Nat) :
    (pixmap_scale wo ho wn hn).copies =
      (List.range hn).flatMap (fun y => (List.range wn).map (fun x =>
        ({ src_x := src_coord wo wn x, src_y := src_coord ho hn y,
           dest_x := uint_to_int x, dest_y := uint_to_int y } : PixelCopy))) := rfl

/-- The copies of `pixmap_scale` are the sampled pixels, one for each pair of loop
counters. -/
theorem mem_pixmap_scale_copies (wo ho wn hn : Nat) (c : PixelCopy) :
    c ∈ (pixmap_scale wo ho wn hn).copies ↔
      ∃ y < hn, ∃ x < wn, c = PixelCopy.mk (src_coord wo wn x) (src_coord ho hn y)
        (uint_to_int x) (uint_to_int y) := by
  rw [pixmap_scale_copies]
  simp only [List.mem_flatMap, List.mem_map, List.mem_range]
  constructor
  · rintro ⟨y, hy, x, hx, rfl⟩
    exact ⟨y, hy, x, hx, rfl⟩
  · rintro ⟨y, hy, x, hx, rfl⟩
    exact ⟨y, hy, x, hx, rfl⟩

theorem pixmap_scale_copies_length (wo ho wn hn : Nat) :
    (pixmap_scale wo ho wn hn).copies.length = wn * hn := by
  rw [pixmap_scale_copies, List.length_flatMap]
  have h : List.map (List.length ∘ fun (y : Nat) => List.map (fun (x : Nat) =>
      ({ src_x := src_coord wo wn x, src_y := src_coord ho hn y,
         dest_x := uint_to_int x, dest_y := uint_to_int y } : PixelCopy)) (List.range wn))
      (List.range hn) = List.replicate hn wn := by
    rw [List.eq_replicate_iff]
    constructor
    · simp
    · intro n hmem
      simp only [List.mem_map, List.mem_range, Function.comp, List.length_map,
        List.length_range] at hmem
      obtain ⟨_, _, h⟩ := hmem
      exact h.symm
  rw [h, List.sum_replicate]
  simp [Nat.mul_comm]

theorem pixmap_scale_dest (wo ho wn hn : Nat) (hw : wn ≤ 2 ^ 31) (hh : hn ≤ 2 ^ 31) :
    (pixmap_scale wo ho wn hn).copies.map (fun c => (c.dest_x, c.dest_y)) =
      dest_pixels wn hn := by
  rw [pixmap_scale_copies]
  unfold dest_pixels
  rw [List.map_flatMap]
  apply List.flatMap_congr
  intro y hy
  rw [List.map_map]
  apply List.map_congr_left
  intro x hx
  have hx1 : x < 2 ^ 31 := lt_of_lt_of_le (List.mem_range.mp hx) hw
  have hy1 : y < 2 ^ 31 := lt_of_lt_of_le (List.mem_range.mp hy) hh
  simp [uint_to_int_small x hx1, uint_to_int_small y hy1]

theorem mem_dest_pixels (wn hn x y : Nat) :
    ((x : Int), (y : Int)) ∈ dest_pixels wn hn ↔ x < wn ∧ y < hn := by
  unfold dest_pixels
  simp only [List.mem_flatMap, List.mem_map, List.mem_range, Prod.mk.injEq]
  constructor
  · rintro ⟨y1, hy1, x1, hx1, hx, hy⟩
    have h1 : x1 = x := by exact_mod_cast hx
    have h2 : y1 = y := by exact_mod_cast hy
    subst h1 h2
    exact ⟨hx1, hy1⟩
  · rintro ⟨hx, hy⟩
    exact ⟨y, hy, x, hx, rfl, rfl⟩

theorem dest_pixels_nodup (wn hn : Nat) : (dest_pixels wn hn).Nodup := by
  unfold dest_pixels
  rw [List.nodup_flatMap]
  constructor
  · intro y _
    apply List.Nodup.map _ (List.nodup_range wn)
    intro x1 x2 h
    simp only [Prod.mk.injEq, and_true] at h
    exact_mod_cast h
  · apply List.Pairwise.imp _ (List.nodup_range hn)
    intro y1 y2 hne
    simp only [Function.onFun]
    intro p hp1 hp2
    simp only [List.mem_map, List.mem_range] at hp1 hp2
    obtain ⟨x1, _, rfl⟩ := hp1
    obtain ⟨x2, _, h⟩ := hp2
    simp only [Prod.mk.injEq] at h
    exact hne (by exact_mod_cast h.2.symm)

/-- The integer part of `x * a / b` or one less, for sizes up to `2^25`. -/
theorem src_coord_near_floor (a b x : Nat) (ha : a ≤ 2 ^ 25) (hb : b ≤ 2 ^ 25) (hx : x < b) :
    (x * a % b ≠ 0 → src_coord a b x = ((x * a / b : Nat) : Int))
    ∧ (src_coord a b x = ((x * a / b : Nat) : Int)
        ∨ src_coord a b x + 1 = ((x * a / b : Nat) : Int)) := by
  have hb0 : 0 < b := by omega
  by_cases ha0 : a = 0
  · subst ha0
    simp [src_coord_zero_size b x hb0]
  · apply src_coord_floor a b x (by omega) hb0 hx
    · norm_num at ha ⊢; omega
    · calc a * b ≤ 2 ^ 25 * 2 ^ 25 := Nat.mul_le_mul ha hb
        _ = 2 ^ 50 := by norm_num

/-- Each destination pixel is the target of exactly one copy. -/
theorem pixmap_scale_written_once (wo ho wn hn x y : Nat) (hw : wn ≤ 2 ^ 31)
    (hh : hn ≤ 2 ^ 31) (hx : x < wn) (hy : y < hn) :
    ((pixmap_scale wo ho wn hn).copies.filter
      (fun c => decide (c.dest_x = (x : Int) ∧ c.dest_y = (y : Int)))).length = 1 := by
  have h1 : List.countP (fun p => decide (p = ((x : Int), (y : Int))))
      ((pixmap_scale wo ho wn hn).copies.map (fun c => (c.dest_x, c.dest_y))) = 1 := by
    rw [pixmap_scale_dest _ _ _ _ hw hh]
    exact List.count_eq_one_of_mem (dest_pixels_nodup _ _)
      ((mem_dest_pixels _ _ _ _).mpr ⟨hx, hy⟩)
  rw [List.countP_map] at h1
  rw [← List.countP_eq_length_filter, ← h1]
  apply List.countP_congr
  intro c _
  simp [Prod.ext_iff]

/-! ## The pixmap scaler: claims C11, C12 and C15 -/

/-- C11, as the code has it: for source and target sizes up to `2^25` (X11 sizes
are at most 65535), `pixmap_scale` makes a `width_new` by `height_new` pixmap and
writes every destination pixel `(x, y)` exactly once, from a single source pixel
computed in double precision as `(int)(x * ((double) width_old / width_new))` and
likewise for `y`.  On each axis that coordinate is `floor(x * src / dst)` whenever
`dst` does not divide `x * src`; where it divides, the coordinate is that quotient
or one less.  It is exactly `x / 2` when the target is twice the source. -/
theorem pixmap_scale_sampling (width_old height_old width_new height_new x y : Nat)
    (hwo : width_old ≤ 2 ^ 25) (hho : height_old ≤ 2 ^ 25)
    (hwn : width_new ≤ 2 ^ 25) (hhn : height_new ≤ 2 ^ 25)
    (hx : x < width_new) (hy : y < height_new) :
    ((pixmap_scale width_old height_old width_new height_new).copies.filter
        (fun c => decide (c.dest_x = (x : Int) ∧ c.dest_y = (y : Int)))).length = 1
    ∧ (∀ c ∈ (pixmap_scale width_old height_old width_new height_new).copies,
        c.dest_x = (x : Int) → c.dest_y = (y : Int) →
        c.src_x = src_coord width_old width_new x
        ∧ c.src_y = src_coord height_old height_new y)
    ∧ (x * width_old % width_new ≠ 0 →
        src_coord width_old width_new x = ((x * width_old / width_new : Nat) : Int))
    ∧ (src_coord width_old width_new x = ((x * width_old / width_new : Nat) : Int)
        ∨ src_coord width_old width_new x + 1 = ((x * width_old / width_new : Nat) : Int))
    ∧ (y * height_old % height_new ≠ 0 →
        src_coord height_old height_new y = ((y * height_old / height_new : Nat) : Int))
    ∧ (src_coord height_old height_new y = ((y * height_old / height_new : Nat) : Int)
        ∨ src_coord height_old height_new y + 1
            = ((y * height_old / height_new : Nat) : Int))
    ∧ (width_new = 2 * width_old → src_coord width_old width_new x = ((x / 2 : Nat) : Int))
    ∧ (pixmap_scale width_old height_old width_new height_new).width = width_new
    ∧ (pixmap_scale width_old height_old width_new height_new).height = height_new
    ∧ (pixmap_scale width_old height_old width_new height_new).copies.length
        = width_new * height_new := by
  have hwn31 : width_new ≤ 2 ^ 31 := le_trans hwn (by norm_num)
  have hhn31 : height_new ≤ 2 ^ 31 := le_trans hhn (by norm_num)
  refine ⟨?_, ?_, (src_coord_near_floor _ _ _ hwo hwn hx).1,
    (src_coord_near_floor _ _ _ hwo hwn hx).2, (src_coord_near_floor _ _ _ hho hhn hy).1,
    (src_coord_near_floor _ _ _ hho hhn hy).2, ?_, rfl, rfl,
    pixmap_scale_copies_length _ _ _ _⟩
  · exact pixmap_scale_written_once _ _ _ _ x y hwn31 hhn31 hx hy
  · intro c hc hcx hcy
    obtain ⟨y1, hy1, x1, hx1, rfl⟩ := (mem_pixmap_scale_copies _ _ _ _ c).mp hc
    have hx2 : x1 < 2 ^ 31 := lt_of_lt_of_le hx1 hwn31
    have hy2 : y1 < 2 ^ 31 := lt_of_lt_of_le hy1 hhn31
    simp only [uint_to_int_small x1 hx2, uint_to_int_small y1 hy2] at hcx hcy
    have h1 : x1 = x := by exact_mod_cast hcx
    have h2 : y1 = y := by exact_mod_cast hcy
    subst h1 h2
    exact ⟨rfl, rfl⟩
  · intro h2
    subst h2
    have ha0 : 0 < width_old := by omega
    exact src_coord_double_size width_old x ha0 (le_trans hwo (by norm_num)) hx

/-- Witness of the amended C11: the 32 x 32 source scaled to 98 x 98, the size of
icon made by the options `-s 98`, at the destination pixel (50, 3). -/
theorem pixmap_scale_sampling_witness :
    ((32 : Nat) ≤ 2 ^ 25 ∧ (98 : Nat) ≤ 2 ^ 25 ∧ (50 : Nat) < 98 ∧ (3 : Nat) < 98)
    ∧ (50 * 32 % 98 ≠ 0 → src_coord 32 98 50 = ((50 * 32 / 98 : Nat) : Int)) :=
  ⟨by decide,
   (pixmap_scale_sampling 32 32 98 98 50 3 (by decide) (by decide) (by decide) (by decide)
      (by decide) (by decide)).2.2.1⟩

/-- Counterexample to C11 as stated: scaling the 32 x 32 source to 98 x 98, the
destination pixel (49, 0) is copied from source column 15, while
`floor(49 * 32 / 98) = 16`. -/
theorem pixmap_scale_sampling_counterexample :
    PixelCopy.mk 15 0 49 0 ∈ (pixmap_scale 32 32 98 98).copies
    ∧ (∀ c ∈ (pixmap_scale 32 32 98 98).copies, c.dest_x = 49 → c.dest_y = 0 → c.src_x = 15)
    ∧ ((49 * 32 / 98 : Nat) : Int) = 16 := by
  refine ⟨?_, ?_, by decide⟩
  · exact (mem_pixmap_scale_copies 32 32 98 98 _).mpr ⟨0, by decide, 49, by decide, by decide⟩
  · intro c hc hcx _
    obtain ⟨y1, hy1, x1, hx1, rfl⟩ := (mem_pixmap_scale_copies _ _ _ _ c).mp hc
    have hx2 : x1 < 2 ^ 31 := lt_of_lt_of_le hx1 (by norm_num)
    simp only [uint_to_int_small x1 hx2] at hcx
    have h1 : x1 = 49 := by exact_mod_cast hcx
    subst h1
    show src_coord 32 98 49 = 15
    decide

/-- C12: when the target size equals the source size (at most `2^31`, so that
pixel coordinates fit an `int`), `pixmap_scale` copies every destination pixel
`(x, y)` from the source pixel `(x, y)`, each exactly once: the output is the
input pixel for pixel. -/
theorem pixmap_scale_identity (width height x y : Nat)
    (hw : width ≤ 2 ^ 31) (hh : height ≤ 2 ^ 31) (hx : x < width) (hy : y < height) :
    PixelCopy.mk (x : Int) (y : Int) (x : Int) (y : Int)
        ∈ (pixmap_scale width height width height).copies
    ∧ (∀ c ∈ (pixmap_scale width height width height).copies,
        c.src_x = c.dest_x ∧ c.src_y = c.dest_y)
    ∧ ((pixmap_scale width height width height).copies.filter
        (fun c => decide (c.dest_x = (x : Int) ∧ c.dest_y = (y : Int)))).length = 1
    ∧ (pixmap_scale width height width height).copies.length = width * height := by
  have hw0 : 0 < width := by omega
  have hh0 : 0 < height := by omega
  refine ⟨?_, ?_, ?_, pixmap_scale_copies_length _ _ _ _⟩
  · refine (mem_pixmap_scale_copies _ _ _ _ _).mpr ⟨y, hy, x, hx, ?_⟩
    rw [src_coord_same_size width x hw0 hw hx, src_coord_same_size height y hh0 hh hy,
      uint_to_int_small x (lt_of_lt_of_le hx hw), uint_to_int_small y (lt_of_lt_of_le hy hh)]
  · intro c hc
    obtain ⟨y1, hy1, x1, hx1, rfl⟩ := (mem_pixmap_scale_copies _ _ _ _ c).mp hc
    simp only
    rw [src_coord_same_size width x1 hw0 hw hx1, src_coord_same_size height y1 hh0 hh hy1,
      uint_to_int_small x1 (lt_of_lt_of_le hx1 hw), uint_to_int_small y1 (lt_of_lt_of_le hy1 hh)]
    exact ⟨rfl, rfl⟩
  · exact pixmap_scale_written_once _ _ _ _ x y hw hh hx hy

/-- Witness of C12: the default 32 x 32 icon, pixel (31, 7). -/
theorem pixmap_scale_identity_witness :
    ((32 : Nat) ≤ 2 ^ 31 ∧ (31 : Nat) < 32 ∧ (7 : Nat) < 32)
    ∧ PixelCopy.mk 31 7 31 7 ∈ (pixmap_scale 32 32 32 32).copies :=
  ⟨by decide,
   (pixmap_scale_identity 32 32 31 7 (by decide) (by decide) (by decide) (by decide)).1⟩

/-- C15, as the code has it: for non-zero source sizes of at most `2^31` (so that
a source coordinate fits an `int`) and target sizes that an `unsigned int` holds,
every source pixel read by `pixmap_scale` lies inside the declared source bounds:
`0 ≤ src_x < width_old` and `0 ≤ src_y < height_old`, for each of the
`width_new * height_new` copies. -/
theorem pixmap_scale_source_bounds (width_old height_old width_new height_new : Nat)
    (hwo : 0 < width_old) (hwo31 : width_old ≤ 2 ^ 31)
    (hho : 0 < height_old) (hho31 : height_old ≤ 2 ^ 31)
    (hwn : width_new < 2 ^ 32) (hhn : height_new < 2 ^ 32) :
    (∀ c ∈ (pixmap_scale width_old height_old width_new height_new).copies,
        0 ≤ c.src_x ∧ c.src_x < (width_old : Int)
        ∧ 0 ≤ c.src_y ∧ c.src_y < (height_old : Int))
    ∧ (∀ x < width_new, 0 ≤ src_coord width_old width_new x
        ∧ src_coord width_old width_new x < (width_old : Int))
    ∧ (∀ y < height_new, 0 ≤ src_coord height_old height_new y
        ∧ src_coord height_old height_new y < (height_old : Int))
    ∧ (pixmap_scale width_old height_old width_new height_new).copies.length
        = width_new * height_new := by
  have hxs : ∀ x < width_new, 0 ≤ src_coord width_old width_new x
      ∧ src_coord width_old width_new x < (width_old : Int) := by
    intro x hx
    exact src_coord_range width_old width_new x hwo hwo31 (by omega) hwn hx
  have hys : ∀ y < height_new, 0 ≤ src_coord height_old height_new y
      ∧ src_coord height_old height_new y < (height_old : Int) := by
    intro y hy
    exact src_coord_range height_old height_new y hho hho31 (by omega) hhn hy
  refine ⟨?_, hxs, hys, pixmap_scale_copies_length _ _ _ _⟩
  intro c hc
  obtain ⟨y1, hy1, x1, hx1, rfl⟩ := (mem_pixmap_scale_copies _ _ _ _ c).mp hc
  exact ⟨(hxs x1 hx1).1, (hxs x1 hx1).2, (hys y1 hy1).1, (hys y1 hy1).2⟩

/-- Witness of the amended C15: the 32 x 32 source scaled to 98 x 98, last column. -/
theorem pixmap_scale_source_bounds_witness :
    ((0 : Nat) < 32 ∧ (32 : Nat) ≤ 2 ^ 31 ∧ (98 : Nat) < 2 ^ 32 ∧ (97 : Nat) < 98)
    ∧ 0 ≤ src_coord 32 98 97 ∧ src_coord 32 98 97 < ((32 : Nat) : Int) :=
  ⟨by decide,
   (pixmap_scale_source_bounds 32 32 98 98 (by decide) (by decide) (by decide) (by decide)
      (by decide) (by decide)).2.1 97 (by decide)⟩

/-- Counterexample to C15 as stated: with the source width declared 0 and a 1 x 1
target, the single copy reads the source pixel (0, 0), and 0 is not below the
declared width 0. -/
theorem pixmap_scale_source_bounds_counterexample :
    (pixmap_scale 0 32 1 1).copies = [PixelCopy.mk 0 0 0 0]
    ∧ ¬ ((0 : Int) < ((0 : Nat) : Int)) := by
  decide

/-! ## The first click and earlier timestamps: claim C14 -/

theorem ulong_sub_zero (t : Nat) (ht : t < ULONG_MOD) : ulong_sub t 0 = t := by
  unfold ULONG_MOD at ht
  unfold ulong_sub ULONG_MOD
  omega

theorem ulong_sub_of_lt (t last : Nat) (hlt : t < last) (hlast : last < ULONG_MOD) :
    ulong_sub t last = ULONG_MOD - (last - t) := by
  unfold ULONG_MOD at hlast
  unfold ulong_sub ULONG_MOD
  omega

/-- A step on an event with a protocol timestamp keeps the stored click time a
32-bit value. -/
theorem events_step_card32 (srv : XServer) (icon : icon_td) (s : LoopState) (e : XEvent)
    (hs : s.last_click_time < 4294967296) (he : card32_time e = true) :
    (events_step srv icon s e).state.last_click_time < 4294967296 := by
  unfold events_step
  split
  · exact hs
  · cases e with
    | ButtonRelease button x y time =>
      simp only [card32_time, decide_eq_true_eq] at he
      simp only
      split
      · split
        · split
          · exact hs
          · exact he
        · exact hs
      · exact hs
    | ButtonPress button x y =>
      simp only
      split <;> exact hs
    | MotionNotify x_root y_root =>
      simp only
      split <;> exact hs
    | ClientMessage data0 => exact hs
    | Expose => exact hs
    | Other => exact hs

/-- The stored click time is a 32-bit value after every history of events with
protocol timestamps. -/
theorem events_loop_card32 (srv : XServer) (icon : icon_td) (hist : List XEvent) :
    ∀ s : LoopState, s.last_click_time < 4294967296 →
      (∀ e ∈ hist, card32_time e = true) →
      (events_loop srv icon s hist).state.last_click_time < 4294967296 := by
  induction hist with
  | nil => intro s hs _; simpa [events_loop] using hs
  | cons e hist ih =>
    intro s hs hall
    have hstep := events_step_card32 srv icon s e hs (hall e (List.mem_cons_self e hist))
    by_cases hstop : (events_step srv icon s e).stop = true
    · rw [events_loop_cons_stop srv icon s e hist hstop]
      exact hstep
    · have hcont : (events_step srv icon s e).stop = false := by simpa using hstop
      rw [events_loop_cons_continue srv icon s e hist hcont]
      exact ih _ hstep (fun e1 h1 => hall e1 (List.mem_cons_of_mem e h1))

/-- A Button1 release whose timestamp is smaller than the stored 32-bit click time
restores nothing and does not end the loop, wherever the pointer is released. -/
theorem events_step_release_earlier (srv : XServer) (icon : icon_td) (s : LoopState)
    (x y : Int) (t : Nat) (hlt : t < s.last_click_time)
    (hlast : s.last_click_time < 4294967296) :
    (events_step srv icon s (XEvent.ButtonRelease Button1 x y t)).stop = false
    ∧ (events_step srv icon s (XEvent.ButtonRelease Button1 x y t)).calls = [] := by
  have hsub : ¬ (ulong_sub t s.last_click_time ≤ 500) := by
    rw [ulong_sub_of_lt t _ hlt (by unfold ULONG_MOD; omega)]
    unfold ULONG_MOD; omega
  unfold events_step
  simp only [is_delete_message, Bool.false_eq_true, if_false, if_true, hsub]
  split <;> simp

/-- C14: in `events_handle` started with the previous-click time 0, the first
classified click calls `window_restore` and ends the loop if and only if its
timestamp is at most 500, so a single click with timestamp at most 500 restores
the window although no click came before.  Timestamps are the 32-bit values of the
X protocol held in an `unsigned long`; the stored time stays such a value after
every event history, and a click whose timestamp is smaller than the stored time
never counts as a double-click: nothing is restored and the loop goes on. -/
theorem events_handle_first_click (srv : XServer) (icon : icon_td) (s : LoopState)
    (x y : Int) (t : Nat)
    (ht : t < 4294967296) (hlast : s.last_click_time < 4294967296) :
    (|x - s.x_drag_start| ≤ 5 → |y - s.y_drag_start| ≤ 5 → s.last_click_time = 0 →
      ((events_step srv icon s (XEvent.ButtonRelease Button1 x y t)).stop = true ↔ t ≤ 500)
      ∧ (t ≤ 500 → events_step srv icon s (XEvent.ButtonRelease Button1 x y t) =
          { state := { s with dragging := false },
            calls := [XCall.XUnmapWindow icon.window, XCall.XMapWindow (some icon.window_orig)],
            stop := true })
      ∧ (500 < t → events_step srv icon s (XEvent.ButtonRelease Button1 x y t) =
          { state := { s with dragging := false, last_click_time := t }, calls := [],
            stop := false }))
    ∧ (t < s.last_click_time →
      (events_step srv icon s (XEvent.ButtonRelease Button1 x y t)).stop = false
      ∧ (events_step srv icon s (XEvent.ButtonRelease Button1 x y t)).calls = [])
    ∧ (|x - s.x_drag_start| ≤ 5 → |y - s.y_drag_start| ≤ 5 → t < s.last_click_time →
      events_step srv icon s (XEvent.ButtonRelease Button1 x y t) =
        { state := { s with dragging := false, last_click_time := t }, calls := [],
          stop := false })
    ∧ (∀ hist : List XEvent, (∀ e ∈ hist, card32_time e = true) →
      (events_loop srv icon events_init hist).state.last_click_time < 4294967296)
    ∧ events_handle srv icon
        [XEvent.ButtonPress Button1 100 100, XEvent.ButtonRelease Button1 100 100 300] =
        { state := { dragging := false, x_drag_start := 100, y_drag_start := 100,
                     last_click_time := 0 },
          calls := [XCall.XUnmapWindow icon.window, XCall.XMapWindow (some icon.window_orig)],
          terminated := true } := by
  have ht64 : t < ULONG_MOD := by unfold ULONG_MOD; omega
  have hlast64 : s.last_click_time < ULONG_MOD := by unfold ULONG_MOD; omega
  refine ⟨?_, ?_, ?_, ?_, ?_⟩
  · intro hx hy h0
    have hstep := events_step_release_click srv icon s x y t hx hy
    rw [h0, ulong_sub_zero t ht64] at hstep
    refine ⟨?_, ?_, ?_⟩
    · rw [hstep]
      by_cases h : t ≤ 500 <;> simp [h]
    · intro h
      rw [hstep, if_pos h, h0]
      rfl
    · intro h
      rw [hstep, if_neg (not_le.mpr h)]
  · intro hlt
    exact events_step_release_earlier srv icon s x y t hlt hlast
  · intro hx hy hlt
    have hstep := events_step_release_click srv icon s x y t hx hy
    rw [hstep, ulong_sub_of_lt t _ hlt hlast64]
    have h : ¬ (ULONG_MOD - (s.last_click_time - t) ≤ 500) := by
      unfold ULONG_MOD; omega
    rw [if_neg h]
  · intro hist hall
    exact events_loop_card32 srv icon hist events_init (by decide) hall
  · simp [events_handle, events_loop, events_step, is_delete_message, events_init, int_abs,
      int_sub, wrapInt, ulong_sub, ULONG_MOD, window_restore]

/-- Witness of C14: a click with timestamp 4000 after a click stored at 5000, for a
press recorded at (100, 100). -/
theorem events_handle_first_click_witness :
    ((4000 : Nat) < 4294967296 ∧ (5000 : Nat) < 4294967296 ∧ (4000 : Nat) < 5000)
    ∧ (events_step sample_server sample_icon
        { dragging := true, x_drag_start := 100, y_drag_start := 100, last_click_time := 5000 }
        (XEvent.ButtonRelease Button1 101 99 4000)).stop = false
    ∧ (events_step sample_server sample_icon
        { dragging := true, x_drag_start := 100, y_drag_start := 100, last_click_time := 5000 }
        (XEvent.ButtonRelease Button1 101 99 4000)).calls = [] :=
  ⟨by decide,
   (events_handle_first_click sample_server sample_icon
      { dragging := true, x_drag_start := 100, y_drag_start := 100, last_click_time := 5000 }
      101 99 4000 (by decide) (by decide)).2.1 (by decide)⟩

/-! ## The layers of `icon_draw`: claim C13 -/

/-- The requests of `icon_draw` for a positive border when no size wraps. -/
theorem icon_draw_border (icon : icon_td) (hb : 0 < icon.border)
    (hw : icon.width + 2 * icon.border < 2 ^ 31)
    (hh : icon.height + 20 + 2 * icon.border < 2 ^ 31) :
    icon_draw icon =
      [XCall.pixmap_scale icon.pixmap DEFAULT_WIDTH DEFAULT_HEIGHT icon.width icon.height,
       XCall.XClearWindow icon.window,
       XCall.XFillRectangle icon.window (Color.value icon.fc) 0 0
         (icon.width + 2 * icon.border) (icon.height + text_height icon + 2 * icon.border),
       XCall.XFillRectangle icon.window Color.WhitePixel icon.border icon.border
         icon.width (icon.height + text_height icon),
       XCall.XCopyArea icon.window 0 0 icon.width icon.height icon.border icon.border]
      ++ (if icon.show_text then
            [XCall.XFillRectangle icon.window (Color.value icon.bg) icon.border
               ((icon.height + icon.border : Nat) : Int) icon.width DEFAULT_TEXT_HEIGHT,
             XCall.XDrawString icon.window (Color.value icon.fg)
               (5 + (icon.border : Int)) ((icon.height + icon.border + 15 : Nat) : Int)
               icon.prog_name]
          else [])
      ++ [XCall.XFreePixmap_scaled] := by
  have hth : text_height icon ≤ 20 := by
    unfold text_height DEFAULT_TEXT_HEIGHT; split <;> omega
  norm_num at hw hh
  have h1 : uint_mul 2 icon.border = 2 * icon.border := by
    unfold uint_mul UINT_MOD; omega
  have h2 : uint_add icon.height (text_height icon) = icon.height + text_height icon := by
    unfold uint_add UINT_MOD; omega
  have h3 : uint_add (icon.height + text_height icon) (2 * icon.border)
      = icon.height + text_height icon + 2 * icon.border := by
    unfold uint_add UINT_MOD; omega
  have h4 : uint_add icon.width (2 * icon.border) = icon.width + 2 * icon.border := by
    unfold uint_add UINT_MOD; omega
  have h6 : uint_add icon.height icon.border = icon.height + icon.border := by
    unfold uint_add UINT_MOD; omega
  have h8 : uint_add (icon.height + icon.border) DEFAULT_TEXT_VOFFSET
      = icon.height + icon.border + 15 := by
    simp only [uint_add, UINT_MOD, DEFAULT_TEXT_VOFFSET]
    omega
  have b1 : icon.border < 2 ^ 31 := by norm_num; omega
  have b2 : icon.height + icon.border < 2 ^ 31 := by norm_num; omega
  have b3 : icon.height + icon.border + 15 < 2 ^ 31 := by norm_num; omega
  have b4 : int_range (5 + (icon.border : Int)) := by
    unfold int_range INT_MIN INT_MAX
    omega
  have h5 : uint_to_int icon.border = (icon.border : Int) := uint_to_int_small _ b1
  have h7 : uint_to_int (icon.height + icon.border) = ((icon.height + icon.border : Nat) : Int) :=
    uint_to_int_small _ b2
  have h9 : uint_to_int (icon.height + icon.border + 15)
      = ((icon.height + icon.border + 15 : Nat) : Int) :=
    uint_to_int_small _ b3
  have h10 : int_add DEFAULT_TEXT_LOFFSET (icon.border : Int) = 5 + (icon.border : Int) :=
    wrapInt_of_range _ b4
  unfold icon_draw
  simp only [hb, gt_iff_lt, if_true, h1, h2, h3, h4, h5, h6, h7, h8, h9, h10]
  rfl

theorem in_rect_true (x y : Int) (width height : Nat) (px py : Int)
    (h : x ≤ px ∧ px < x + (width : Int) ∧ y ≤ py ∧ py < y + (height : Int)) :
    in_rect x y width height px py = true := by
  unfold in_rect; exact decide_eq_true h

theorem in_rect_false (x y : Int) (width height : Nat) (px py : Int)
    (h : ¬ (x ≤ px ∧ px < x + (width : Int) ∧ y ≤ py ∧ py < y + (height : Int))) :
    in_rect x y width height px py = false := by
  unfold in_rect; exact decide_eq_false h

/-- C13, as the code has it: in `icon_draw` with a border `b > 0`, content size
`w x h` and caption height `c`, all sizes being free of wrap-around, the rectangle
fills and the image blit leave the `b`-wide band along the four sides of the
`(w + 2b) x (h + c + 2b)` window showing the frame fill, beneath the caption band
as well, and the inner area showing the image on its first `h` rows and the
caption band below them.  The caption text is drawn last and is not clipped: a
pixel on which a glyph of the caption falls shows the text, whether it lies in the
inner area or in the band; every other pixel shows the layer just described. -/
theorem icon_draw_frame (font : Font) (icon : icon_td) (px py : Int) (hb : 0 < icon.border)
    (hw : icon.width + 2 * icon.border < 2 ^ 31)
    (hh : icon.height + 20 + 2 * icon.border < 2 ^ 31)
    (hpx : 0 ≤ px ∧ px < ((icon.width + 2 * icon.border : Nat) : Int))
    (hpy : 0 ≤ py ∧ py < ((icon.height + text_height icon + 2 * icon.border : Nat) : Int)) :
    ((px < (icon.border : Int) ∨ ((icon.border + icon.width : Nat) : Int) ≤ px
        ∨ py < (icon.border : Int)
        ∨ ((icon.border + icon.height + text_height icon : Nat) : Int) ≤ py) →
      (icon.show_text = true → font icon.prog_name (px - (5 + (icon.border : Int)))
        (py - ((icon.height + icon.border + 15 : Nat) : Int)) = false) →
      last_paint font (icon_draw icon) px py =
        some (XCall.XFillRectangle icon.window (Color.value icon.fc) 0 0
          (icon.width + 2 * icon.border) (icon.height + text_height icon + 2 * icon.border)))
    ∧ (((icon.border : Int) ≤ px ∧ px < ((icon.border + icon.width : Nat) : Int)
        ∧ (icon.border : Int) ≤ py ∧ py < ((icon.border + icon.height : Nat) : Int)) →
      (icon.show_text = true → font icon.prog_name (px - (5 + (icon.border : Int)))
        (py - ((icon.height + icon.border + 15 : Nat) : Int)) = false) →
      last_paint font (icon_draw icon) px py =
        some (XCall.XCopyArea icon.window 0 0 icon.width icon.height icon.border icon.border))
    ∧ (((icon.border : Int) ≤ px ∧ px < ((icon.border + icon.width : Nat) : Int)
        ∧ ((icon.border + icon.height : Nat) : Int) ≤ py
        ∧ py < ((icon.border + icon.height + text_height icon : Nat) : Int)) →
      (icon.show_text = true → font icon.prog_name (px - (5 + (icon.border : Int)))
        (py - ((icon.height + icon.border + 15 : Nat) : Int)) = false) →
      last_paint font (icon_draw icon) px py =
        some (XCall.XFillRectangle icon.window (Color.value icon.bg) icon.border
          ((icon.height + icon.border : Nat) : Int) icon.width DEFAULT_TEXT_HEIGHT))
    ∧ (icon.show_text = true →
      font icon.prog_name (px - (5 + (icon.border : Int)))
        (py - ((icon.height + icon.border + 15 : Nat) : Int)) = true →
      last_paint font (icon_draw icon) px py =
        some (XCall.XDrawString icon.window (Color.value icon.fg) (5 + (icon.border : Int))
          ((icon.height + icon.border + 15 : Nat) : Int) icon.prog_name)) := by
  rw [icon_draw_border icon hb hw hh]
  cases hst : icon.show_text
  · have hc : text_height icon = 0 := by simp [text_height, hst]
    rw [hc] at hpy ⊢
    simp only [Bool.false_eq_true, if_false, List.append_nil, Nat.add_zero] at hpy ⊢
    have hframe : in_rect 0 0 (icon.width + 2 * icon.border)
        (icon.height + 2 * icon.border) px py = true :=
      in_rect_true _ _ _ _ _ _ (by omega)
    refine ⟨?_, ?_, ?_, ?_⟩
    · intro hband _
      have h1 : in_rect icon.border icon.border icon.width icon.height px py = false :=
        in_rect_false _ _ _ _ _ _ (by push_cast at hband ⊢; omega)
      simp [last_paint, List.filter, paints, hframe, h1]
    · intro hin _
      have h1 : in_rect icon.border icon.border icon.width icon.height px py = true :=
        in_rect_true _ _ _ _ _ _ (by push_cast at hin ⊢; omega)
      simp [last_paint, List.filter, paints, hframe, h1]
    · intro hin
      exfalso
      push_cast at hin
      omega
    · intro hfalse
      exact absurd hfalse (by simp)
  · have hc : text_height icon = 20 := by simp [text_height, hst, DEFAULT_TEXT_HEIGHT]
    rw [hc] at hpy ⊢
    simp only [if_true]
    have hframe : in_rect 0 0 (icon.width + 2 * icon.border)
        (icon.height + 20 + 2 * icon.border) px py = true :=
      in_rect_true _ _ _ _ _ _ (by omega)
    refine ⟨?_, ?_, ?_, ?_⟩
    · intro hband hink
      have h1 : in_rect icon.border icon.border icon.width (icon.height + 20) px py = false :=
        in_rect_false _ _ _ _ _ _ (by push_cast at hband ⊢; omega)
      have h2 : in_rect icon.border icon.border icon.width icon.height px py = false :=
        in_rect_false _ _ _ _ _ _ (by push_cast at hband ⊢; omega)
      have h3 : in_rect icon.border ((icon.height + icon.border : Nat) : Int) icon.width
          DEFAULT_TEXT_HEIGHT px py = false :=
        in_rect_false _ _ _ _ _ _ (by
          unfold DEFAULT_TEXT_HEIGHT; push_cast at hband ⊢; omega)
      have h4 := hink trivial
      push_cast at h3 h4
      simp [last_paint, List.filter, paints, hframe, h1, h2, h3, h4]
    · intro hin hink
      have h1 : in_rect icon.border icon.border icon.width (icon.height + 20) px py = true :=
        in_rect_true _ _ _ _ _ _ (by push_cast at hin ⊢; omega)
      have h2 : in_rect icon.border icon.border icon.width icon.height px py = true :=
        in_rect_true _ _ _ _ _ _ (by push_cast at hin ⊢; omega)
      have h3 : in_rect icon.border ((icon.height + icon.border : Nat) : Int) icon.width
          DEFAULT_TEXT_HEIGHT px py = false :=
        in_rect_false _ _ _ _ _ _ (by
          unfold DEFAULT_TEXT_HEIGHT; push_cast at hin ⊢; omega)
      have h4 := hink trivial
      push_cast at h3 h4
      simp [last_paint, List.filter, paints, hframe, h1, h2, h3, h4]
    · intro hin hink
      have h1 : in_rect icon.border icon.border icon.width (icon.height + 20) px py = true :=
        in_rect_true _ _ _ _ _ _ (by push_cast at hin ⊢; omega)
      have h2 : in_rect icon.border icon.border icon.width icon.height px py = false :=
        in_rect_false _ _ _ _ _ _ (by push_cast at hin ⊢; omega)
      have h3 : in_rect icon.border ((icon.height + icon.border : Nat) : Int) icon.width
          DEFAULT_TEXT_HEIGHT px py = true :=
        in_rect_true _ _ _ _ _ _ (by
          unfold DEFAULT_TEXT_HEIGHT; push_cast at hin ⊢; omega)
      have h4 := hink trivial
      push_cast at h3 h4
      simp [last_paint, List.filter, paints, hframe, h1, h2, h3, h4]
    · intro _ hink
      have hsplit : [XCall.pixmap_scale icon.pixmap DEFAULT_WIDTH DEFAULT_HEIGHT icon.width
            icon.height,
          XCall.XClearWindow icon.window,
          XCall.XFillRectangle icon.window (Color.value icon.fc) 0 0
            (icon.width + 2 * icon.border) (icon.height + 20 + 2 * icon.border),
          XCall.XFillRectangle icon.window Color.WhitePixel icon.border icon.border
            icon.width (icon.height + 20),
          XCall.XCopyArea icon.window 0 0 icon.width icon.height icon.border icon.border]
          ++ [XCall.XFillRectangle icon.window (Color.value icon.bg) icon.border
               ((icon.height + icon.border : Nat) : Int) icon.width DEFAULT_TEXT_HEIGHT,
             XCall.XDrawString icon.window (Color.value icon.fg)
               (5 + (icon.border : Int)) ((icon.height + icon.border + 15 : Nat) : Int)
               icon.prog_name]
          ++ [XCall.XFreePixmap_scaled]
          = [XCall.pixmap_scale icon.pixmap DEFAULT_WIDTH DEFAULT_HEIGHT icon.width
            icon.height,
          XCall.XClearWindow icon.window,
          XCall.XFillRectangle icon.window (Color.value icon.fc) 0 0
            (icon.width + 2 * icon.border) (icon.height + 20 + 2 * icon.border),
          XCall.XFillRectangle icon.window Color.WhitePixel icon.border icon.border
            icon.width (icon.height + 20),
          XCall.XCopyArea icon.window 0 0 icon.width icon.height icon.border icon.border,
          XCall.XFillRectangle icon.window (Color.value icon.bg) icon.border
               ((icon.height + icon.border : Nat) : Int) icon.width DEFAULT_TEXT_HEIGHT]
          ++ [XCall.XDrawString icon.window (Color.value icon.fg)
               (5 + (icon.border : Int)) ((icon.height + icon.border + 15 : Nat) : Int)
               icon.prog_name,
              XCall.XFreePixmap_scaled] := by
        simp
      have hlast : List.filter (fun c => paints font c px py)
          [XCall.XDrawString icon.window (Color.value icon.fg)
             (5 + (icon.border : Int)) ((icon.height + icon.border + 15 : Nat) : Int)
             icon.prog_name,
           XCall.XFreePixmap_scaled]
          = [XCall.XDrawString icon.window (Color.value icon.fg)
             (5 + (icon.border : Int)) ((icon.height + icon.border + 15 : Nat) : Int)
             icon.prog_name] := by
        have hink2 := hink
        push_cast at hink2
        simp [List.filter, paints, hink2]
      unfold last_paint
      rw [hsplit, List.filter_append, hlast, List.getLast?_concat]

/-- Witness of the amended C13: the sample icon (border 1, 32 x 32, caption
"xterm") in the sample font, at the pixel (5, 53) of the bottom row of its 34 x 54
window, beneath the caption band, where no glyph falls. -/
theorem icon_draw_frame_witness :
    ((0 : Nat) < sample_icon.border
      ∧ sample_icon.width + 2 * sample_icon.border < 2 ^ 31
      ∧ sample_icon.height + 20 + 2 * sample_icon.border < 2 ^ 31
      ∧ ((0 : Int) ≤ 5 ∧ (5 : Int) < ((sample_icon.width + 2 * sample_icon.border : Nat) : Int))
      ∧ ((0 : Int) ≤ 53 ∧ (53 : Int) < ((sample_icon.height + text_height sample_icon
          + 2 * sample_icon.border : Nat) : Int))
      ∧ ((sample_icon.border + sample_icon.height + text_height sample_icon : Nat) : Int) ≤ 53
      ∧ sample_font sample_icon.prog_name (5 - (5 + (sample_icon.border : Int)))
          (53 - ((sample_icon.height + sample_icon.border + 15 : Nat) : Int)) = false)
    ∧ last_paint sample_font (icon_draw sample_icon) 5 53 =
        some (XCall.XFillRectangle sample_icon.window (Color.value sample_icon.fc) 0 0
          (sample_icon.width + 2 * sample_icon.border)
          (sample_icon.height + text_height sample_icon + 2 * sample_icon.border)) :=
  ⟨by decide,
   (icon_draw_frame sample_font sample_icon 5 53 (by decide) (by decide) (by decide)
      (by decide) (by decide)).1 (Or.inr (Or.inr (Or.inr (by decide)))) (fun _ => by decide)⟩

/-- Counterexample to C13 as stated.  The default icon (border 1, 32 x 32, caption
"xterm" drawn at (6, 48)) in a font of 6-pixel cells: the fifth glyph falls on the
column 33, the right band of the 34-pixel window, and the pixel (33, 45) shows the
caption text, not the frame fill.  With the border `(unsigned int) -1` the sizes
wrap: the reset rectangle and the blit start at (-1, -1) and the corner pixel
(0, 0) shows the image, there is no frame band. -/
theorem icon_draw_frame_counterexample :
    ((sample_icon.border + sample_icon.width : Nat) : Int) ≤ 33
    ∧ last_paint sample_font (icon_draw sample_icon) 33 45 =
        some (XCall.XDrawString (some 9) (Color.value 0) 6 48 "xterm")
    ∧ (0 : Nat) < wrapped_border_icon.border
    ∧ last_paint sample_font (icon_draw wrapped_border_icon) 0 0 =
        some (XCall.XCopyArea (some 9) 0 0 32 32 (-1) (-1)) := by
  decide

end Iconify
